import Mathlib

/-!
# Vaani-Nyay: voice prompt selection and voice-input form

A shallow embedding of `frontend/src/hooks/useTTS.ts` and of the parts of
`frontend/src/components/VoiceInput.tsx` that select a voice, hand utterances to
the browser's speech synthesizer and react to recognition results and
navigation clicks.

JavaScript strings are modelled by Lean strings; the browser (synthesizer queue,
timers, `voiceschanged` listeners) is an explicit state that every operation
transforms.
-/

namespace VaaniNyay

/-! ## JavaScript string helpers -/

/-- The expression `s.split('-')[0]`: the part of `s` before the first hyphen
(all of `s` when it has none). -/
def splitFirst (s : String) : String :=
  ⟨s.data.takeWhile (fun c => c != '-')⟩

/-- The expression `s.startsWith(p)`. -/
def startsWith (s p : String) : Bool :=
  p.data.isPrefixOf s.data

/-! ## Voices and the fallback table (hooks/useTTS.ts) -/

/-- The interface `Voice` of hooks/useTTS.ts. -/
structure Voice where
  name : String
  lang : String
  localService : Bool
  default : Bool
deriving DecidableEq, Repr

/-- What the property read `fallbackMap[lang]` evaluates to. The table is an
object literal, so besides its four own keys a read also finds the properties
every object inherits from `Object.prototype`; those values are functions (or,
for `__proto__`, the prototype object): truthy and not iterable. -/
inductive Lookup where
  | own (chain : List String)
  | inherited
  | undefined
deriving DecidableEq, Repr

/-- The property names every object literal inherits from `Object.prototype`. -/
def objectPrototypeKeys : List String :=
  ["constructor", "hasOwnProperty", "isPrototypeOf", "propertyIsEnumerable",
   "toLocaleString", "toString", "valueOf", "__proto__",
   "__defineGetter__", "__defineSetter__", "__lookupGetter__", "__lookupSetter__"]

/-- The table `fallbackMap` of hooks/useTTS.ts, read at key `lang`. -/
def fallbackMap (lang : String) : Lookup :=
  if lang = "mr-IN" then .own ["mr-IN", "mr", "hi-IN", "hi", "en-IN", "en-US"]
  else if lang = "kn-IN" then .own ["kn-IN", "kn", "hi-IN", "hi", "en-IN", "en-US"]
  else if lang = "hi-IN" then .own ["hi-IN", "hi", "en-IN", "en-US"]
  else if lang = "en-IN" then .own ["en-IN", "en-US", "en-GB", "en"]
  else if lang ∈ objectPrototypeKeys then .inherited
  else .undefined

/-- Errors a JavaScript evaluation can throw. -/
inductive JSError where
  | typeError
  | error (message : String)
deriving DecidableEq, Repr

instance instDecidableEqExcept {ε α : Type} [DecidableEq ε] [DecidableEq α] :
    DecidableEq (Except ε α)
  | .ok a, .ok b => if h : a = b then isTrue (by rw [h]) else isFalse (by intro h2; cases h2; exact h rfl)
  | .error a, .error b => if h : a = b then isTrue (by rw [h]) else isFalse (by intro h2; cases h2; exact h rfl)
  | .ok _, .error _ => isFalse (by intro h; cases h)
  | .error _, .ok _ => isFalse (by intro h; cases h)

/-- The line `const candidateLangs = [lang, ...(fallbackMap[lang] || ['en-IN', 'en-US'])]`.
Spreading a truthy value that is not iterable throws a `TypeError`. -/
def candidateLangs (lang : String) : Except JSError (List String) :=
  match fallbackMap lang with
  | .own chain => .ok (lang :: chain)
  | .undefined => .ok (lang :: ["en-IN", "en-US"])
  | .inherited => .error .typeError

/-- The loop over `candidateLangs` in `speakNow` (hooks/useTTS.ts): for each
candidate first `voices.find(v => v.lang === candidateLang)`, then
`voices.find(v => v.lang.startsWith(candidateLang.split('-')[0]))`; the first hit
ends the loop. -/
def matchedVoice (voices : List Voice) : List String → Option Voice
  | [] => none
  | candidateLang :: rest =>
    match voices.find? (fun v => v.lang == candidateLang) with
    | some v => some v
    | none =>
      match voices.find? (fun v => startsWith v.lang (splitFirst candidateLang)) with
      | some v => some v
      | none => matchedVoice voices rest

/-- The voice selection of `speakNow` (hooks/useTTS.ts): candidate list, then the
loop. -/
def selectVoice (lang : String) (voices : List Voice) : Except JSError (Option Voice) :=
  match candidateLangs lang with
  | .ok cands => .ok (matchedVoice voices cands)
  | .error e => .error e

/-! ## Utterances and the browser state -/

/-- A JavaScript number as far as the code inspects it: `NaN`, or a decimal
`mant * 10 ^ (-exp)`. -/
inductive JSNumber where
  | nan
  | dec (mant : Int) (exp : Nat)
deriving DecidableEq, Repr

/-- The JavaScript expression `x || d` for an optional number `x`: `undefined`, `0` and
`NaN` are falsy. -/
def JSNumber.orElse (x : Option JSNumber) (d : JSNumber) : JSNumber :=
  match x with
  | some (.dec mant exp) => if mant = 0 then d else .dec mant exp
  | some .nan => d
  | none => d

/-- The interface `TTSOptions` of hooks/useTTS.ts; a callback is given by an identifier. -/
structure TTSOptions where
  rate : Option JSNumber
  pitch : Option JSNumber
  volume : Option JSNumber
  onStart : Option Nat
  onEnd : Option Nat
  onError : Option Nat
deriving DecidableEq, Repr

/-- The options record `{}`. -/
def TTSOptions.empty : TTSOptions := ⟨none, none, none, none, none, none⟩

/-- A `SpeechSynthesisUtterance` as the code fills it in. -/
structure Utterance where
  text : String
  lang : String
  rate : JSNumber
  pitch : JSNumber
  volume : JSNumber
  voice : Option Voice
  onStart : Option Nat
  onEnd : Option Nat
  onError : Option Nat
deriving DecidableEq, Repr

/-- Calls the code makes on the platform, in the order they are made. -/
inductive Call where
  | cancel
  | speak (u : Utterance)
  | warn (message : String)
  | log (message : String)
  | onError (callback : Nat)
deriving DecidableEq, Repr

/-- A pending `setTimeout(() => synth.speak(utterance), 100)`. -/
structure Timer where
  due : Nat
  utterance : Utterance
deriving DecidableEq, Repr

/-- A registered `handleVoicesChanged` closure: the arguments of the `speak` call
that registered it. -/
structure Listener where
  text : String
  lang : String
  options : TTSOptions
deriving DecidableEq, Repr

/-- The browser as the hooks see it. `queue` is the synthesizer's utterance queue
(its head is the utterance being played), `now` the clock in milliseconds,
`isSpeaking` the React state of hooks/useTTS.ts. -/
structure Browser where
  hasSynth : Bool
  voices : List Voice
  queue : List Utterance
  timers : List Timer
  listeners : List Listener
  now : Nat
  calls : List Call
  isSpeaking : Bool
deriving DecidableEq, Repr

/-- Registering a timer: timers are kept in firing order (by due time, then by
registration). -/
def insertTimer (t : Timer) : List Timer → List Timer
  | [] => [t]
  | x :: xs => if x.due ≤ t.due then x :: insertTimer t xs else t :: x :: xs

/-- The utterance `speakNow` of hooks/useTTS.ts builds (lines 72-83). -/
def mkUtterance (text lang : String) (options : TTSOptions) (voice : Option Voice) :
    Utterance :=
  { text := text
    lang := lang
    rate := JSNumber.orElse options.rate (.dec 85 2)
    pitch := JSNumber.orElse options.pitch (.dec 10 1)
    volume := JSNumber.orElse options.volume (.dec 10 1)
    voice := voice
    onStart := options.onStart
    onEnd := options.onEnd
    onError := options.onError }

/-- The closure `speakNow` of hooks/useTTS.ts: select a voice, build the utterance,
`synth.cancel()`, then `setTimeout(() => synth.speak(utterance), 100)`. -/
def speakNow (b : Browser) (text lang : String) (options : TTSOptions) :
    Except JSError Browser :=
  match selectVoice lang b.voices with
  | .error e => .error e
  | .ok voice =>
    let utterance := mkUtterance text lang options voice
    let note := match voice with
      | some v => Call.log ("Using voice: " ++ v.name ++ " (" ++ v.lang ++ ")")
      | none => Call.warn ("No suitable voice found for " ++ lang ++ ", using default")
    .ok { b with
      queue := []
      calls := b.calls ++ [note, Call.cancel]
      timers := insertTimer ⟨b.now + 100, utterance⟩ b.timers }

/-- The function `speak` of hooks/useTTS.ts. A caller that leaves `lang` or `options` out
passes "hi-IN" and `TTSOptions.empty`. An error thrown by `speakNow` reaches the caller. -/
def speak (b : Browser) (text lang : String) (options : TTSOptions) :
    Except JSError Browser :=
  if b.hasSynth = false then
    .ok { b with
      calls := b.calls ++ [Call.warn "Speech synthesis not supported in this browser"] ++
        (match options.onError with
          | some cb => [Call.onError cb]
          | none => []) }
  else if b.voices.length = 0 then
    .ok { b with listeners := b.listeners ++ [⟨text, lang, options⟩] }
  else speakNow b text lang options

/-- The function `stopSpeaking` of hooks/useTTS.ts. -/
def stopSpeaking (b : Browser) : Browser :=
  if b.hasSynth then
    { b with queue := [], calls := b.calls ++ [Call.cancel], isSpeaking := false }
  else b

/-- The clock advances by `ms` milliseconds: every timer that is due by then fires, in
firing order, and its callback `synth.speak(utterance)` appends the utterance to the
synthesizer's queue. -/
def advance (b : Browser) (ms : Nat) : Browser :=
  let fired := b.timers.filter (fun t => decide (t.due ≤ b.now + ms))
  { b with
    now := b.now + ms
    timers := b.timers.filter (fun t => !decide (t.due ≤ b.now + ms))
    queue := b.queue ++ fired.map (fun t => t.utterance)
    calls := b.calls ++ fired.map (fun t => Call.speak t.utterance) }

/-- The platform publishes a voice catalog and dispatches `voiceschanged`: every
listener registered at that moment runs `speakNow()` and then removes itself; a
listener whose `speakNow()` throws does not reach its `removeEventListener`. -/
def voicesChanged (b : Browser) (voices : List Voice) : Browser :=
  b.listeners.foldl
    (fun acc l =>
      match speakNow acc l.text l.lang l.options with
      | .ok b2 => { b2 with listeners := b2.listeners.erase l }
      | .error _ => acc)
    { b with voices := voices }

/-- The function `getVoicesForLanguage` of hooks/useTTS.ts. -/
def getVoicesForLanguage (b : Browser) (lang : String) : List Voice :=
  if b.hasSynth = false then []
  else b.voices.filter fun voice =>
    voice.lang == lang || startsWith voice.lang (splitFirst lang)

/-- A browser with speech synthesis, the given catalog and nothing pending. -/
def Browser.idle (voices : List Voice) : Browser :=
  ⟨true, voices, [], [], [], 0, [], false⟩

/-! ## The `useTTS` defined inside components/VoiceInput.tsx -/

namespace Inline

/-- The table `fallbackMap` of the `useTTS` inside VoiceInput.tsx, read at key `lang`. -/
def fallbackMap (lang : String) : Lookup :=
  if lang = "mr-IN" then .own ["mr", "hi-IN", "hi", "en-IN", "en-US"]
  else if lang = "kn-IN" then .own ["kn", "hi-IN", "hi", "en-IN", "en-US"]
  else if lang = "hi-IN" then .own ["hi-IN", "hi", "en-IN", "en-US"]
  else if lang = "en-IN" then .own ["en-IN", "en-US", "en-GB", "en"]
  else if lang ∈ objectPrototypeKeys then .inherited
  else .undefined

/-- The line `const candidateLangs = [lang, ...(fallbackMap[lang] || ['en-IN', 'en-US'])]`. -/
def candidateLangs (lang : String) : Except JSError (List String) :=
  match fallbackMap lang with
  | .own chain => .ok (lang :: chain)
  | .undefined => .ok (lang :: ["en-IN", "en-US"])
  | .inherited => .error .typeError

/-- The expression
`candidateLangs.map(code => voices.find(v => v.lang.startsWith(code.split('-')[0]))).find(Boolean)`. -/
def matchedVoice (voices : List Voice) (cands : List String) : Option Voice :=
  ((cands.map fun code => voices.find? fun v => startsWith v.lang (splitFirst code)).find?
    fun found => found.isSome).join

/-- The voice selection of the inline `speakNow`. -/
def selectVoice (lang : String) (voices : List Voice) : Except JSError (Option Voice) :=
  match candidateLangs lang with
  | .ok cands => .ok (matchedVoice voices cands)
  | .error e => .error e

/-- The utterance the inline `speakNow` builds (VoiceInput.tsx lines 38-46). -/
def mkUtterance (text lang : String) (voice : Option Voice) : Utterance :=
  { text := text
    lang := lang
    rate := .dec 9 1
    pitch := .dec 10 1
    volume := .dec 10 1
    voice := voice
    onStart := none
    onEnd := none
    onError := none }

/-- The closure `speakNow` of the inline `useTTS`: select, build, `synth.cancel()`,
`synth.speak(utterance)`. -/
def speakNow (b : Browser) (text lang : String) : Except JSError Browser :=
  match selectVoice lang b.voices with
  | .error e => .error e
  | .ok voice =>
    let utterance := mkUtterance text lang voice
    .ok { b with
      queue := [utterance]
      calls := b.calls ++ [Call.cancel, Call.speak utterance] }

/-- The function `speak` of the inline `useTTS`. A caller that leaves `lang` out passes
"hi-IN". -/
def speak (b : Browser) (text lang : String) : Except JSError Browser :=
  if b.hasSynth = false then
    .ok { b with calls := b.calls ++ [Call.warn "Speech synthesis not supported"] }
  else if b.voices.length = 0 then
    .ok { b with listeners := b.listeners ++ [⟨text, lang, TTSOptions.empty⟩] }
  else speakNow b text lang

/-- The function `stopSpeaking` of the inline `useTTS`. -/
def stopSpeaking (b : Browser) : Browser :=
  if b.hasSynth then { b with queue := [], calls := b.calls ++ [Call.cancel] } else b

/-- The platform publishes a voice catalog and dispatches `voiceschanged` to the
listeners the inline `speak` registered. -/
def voicesChanged (b : Browser) (voices : List Voice) : Browser :=
  b.listeners.foldl
    (fun acc l =>
      match speakNow acc l.text l.lang with
      | .ok b2 => { b2 with listeners := b2.listeners.erase l }
      | .error _ => acc)
    { b with voices := voices }

end Inline

/-! ## The component components/VoiceInput.tsx -/

/-- The prop `field` of `VoiceInputProps`. -/
structure Field where
  key : String
  label : String
  type : String
  section_ : String
  options : Option (List String)
deriving DecidableEq, Repr

/-- The interface `VoiceInputProps`, callbacks apart (they appear as effects). -/
structure VoiceInputProps where
  value : String
  placeholder : String
  field : Field
  canGoNext : Bool
  canGoPrevious : Bool
  isLastField : Bool
  currentStep : Nat
  totalSteps : Nat
  sectionLabel : Option String
deriving DecidableEq, Repr

/-- What a handler of `VoiceInput` does, in order: calls of the parent's callbacks,
state updates, and `after ms e` for an effect `e` inside a `setTimeout(.., ms)`. -/
inductive Effect where
  | onChange (value : String)
  | onNext
  | onPrevious
  | setIsAnimating (flag : Bool)
  | setIsListening (flag : Bool)
  | toast (title description variant : String)
  | recognitionStart
  | recognitionStop
  | setIsSpeaking (flag : Bool)
  | speak (text lang : String)
  | clearTimeout
  | stopSpeaking
  | focus
  | speakFieldLabel
  | consoleError (message : String)
  | after (ms : Nat) (e : Effect)
deriving DecidableEq, Repr

/-- The call an effect ends in, whatever its delay. -/
def Effect.core : Effect → Effect
  | .after _ e => e.core
  | .onChange value => .onChange value
  | .onNext => .onNext
  | .onPrevious => .onPrevious
  | .setIsAnimating flag => .setIsAnimating flag
  | .setIsListening flag => .setIsListening flag
  | .toast title description variant => .toast title description variant
  | .recognitionStart => .recognitionStart
  | .recognitionStop => .recognitionStop
  | .setIsSpeaking flag => .setIsSpeaking flag
  | .speak text lang => .speak text lang
  | .clearTimeout => .clearTimeout
  | .stopSpeaking => .stopSpeaking
  | .focus => .focus
  | .speakFieldLabel => .speakFieldLabel
  | .consoleError message => .consoleError message

/-- The argument of `onChange` in `recognition.onresult`:
`value + (value ? ' ' : '') + transcript`, where `value` is the prop the closure
captured when `startListening` ran. -/
def onresultValue (value transcript : String) : String :=
  value ++ (if value ≠ "" then " " else "") ++ transcript

/-- The handler `recognitionRef.current.onresult` installed by `startListening`. -/
def onresult (value transcript : String) : List Effect :=
  [Effect.onChange (onresultValue value transcript)]

/-- Captures made one after another on one field: the parent stores the string it
receives through `onChange` and passes it back as `value` before the next
`startListening`. -/
def captures (value : String) (transcripts : List String) : String :=
  transcripts.foldl onresultValue value

/-- The handler `handleNext`. -/
def handleNext : List Effect :=
  [Effect.setIsAnimating true, Effect.after 300 Effect.onNext,
   Effect.after 300 (Effect.setIsAnimating false)]

/-- The handler `handlePrevious`. -/
def handlePrevious : List Effect :=
  [Effect.setIsAnimating true, Effect.after 300 Effect.onPrevious,
   Effect.after 300 (Effect.setIsAnimating false)]

/-- A click on the Next/Preview button, `<Button onClick={handleNext} disabled={!canGoNext}>`:
a disabled button dispatches no click. -/
def nextButtonClick (p : VoiceInputProps) : List Effect :=
  if p.canGoNext then handleNext else []

/-- A click on the Previous button,
`<Button onClick={handlePrevious} disabled={!canGoPrevious}>`. -/
def previousButtonClick (p : VoiceInputProps) : List Effect :=
  if p.canGoPrevious then handlePrevious else []

/-- The handler `handleKeyPress`, given `e.key`. -/
def handleKeyPress (p : VoiceInputProps) (key : String) : List Effect :=
  if key = "Enter" ∧ p.canGoNext = true then
    [Effect.setIsAnimating true, Effect.after 300 Effect.onNext,
     Effect.after 300 (Effect.setIsAnimating false)]
  else []

/-- The JavaScript expression `a || b` on strings: the empty string, like `undefined`,
is falsy. -/
def orString (a b : String) : String :=
  if a = "" then b else a

/-- Which speech-recognition constructors `window` has. -/
structure RecognitionSupport where
  webkitSpeechRecognition : Bool
  SpeechRecognition : Bool
deriving DecidableEq, Repr

/-- A session made by `new SpeechRecognition()` as `startListening` configures it;
`value` is the prop its `onresult` closure captured. -/
structure Recognition where
  continuous : Bool
  interimResults : Bool
  lang : String
  value : String
deriving DecidableEq, Repr

/-- The capture state of the component: the React state `isListening` and
`recognitionRef.current`. -/
structure CaptureState where
  isListening : Bool
  recognitionRef : Option Recognition
deriving DecidableEq, Repr

/-- The function `startListening`; `translate` is the lookup of the language context,
`speechLang` its recognition language. -/
def startListening (w : RecognitionSupport) (translate : String → String)
    (speechLang : String) (p : VoiceInputProps) (st : CaptureState) :
    CaptureState × List Effect :=
  if w.webkitSpeechRecognition || w.SpeechRecognition then
    ({ st with recognitionRef := some ⟨false, false, speechLang, p.value⟩ },
      [Effect.recognitionStart])
  else
    (st, [Effect.toast
      (orString (translate "error.voiceNotSupported") "Voice Input Not Supported")
      (orString (translate "error.pleaseType") "Please type your response.")
      "destructive"])

/-- The function `stopListening`. -/
def stopListening (st : CaptureState) : CaptureState × List Effect :=
  ({ st with isListening := false },
    (if st.recognitionRef.isSome then [Effect.recognitionStop] else []) ++
      [Effect.setIsListening false])

/-- The function `toggleListening`, the click handler of the microphone button. -/
def toggleListening (w : RecognitionSupport) (translate : String → String)
    (speechLang : String) (p : VoiceInputProps) (st : CaptureState) :
    CaptureState × List Effect :=
  if st.isListening then stopListening st else startListening w translate speechLang p st

/-- The handler `recognitionRef.current.onstart`. -/
def onstart (st : CaptureState) : CaptureState × List Effect :=
  ({ st with isListening := true }, [Effect.setIsListening true])

/-- The handler `recognitionRef.current.onerror`, given `event.error`. -/
def onerror (translate : String → String) (error : String) (st : CaptureState) :
    CaptureState × List Effect :=
  (st, [Effect.consoleError ("Speech recognition error: " ++ error),
    Effect.toast (orString (translate "error.voiceInput") "Voice Input Error")
      (orString (translate "error.tryAgainOrType") "Please try again or type your response.")
      "destructive"])

/-- The handler `recognitionRef.current.onend`. -/
def onend (st : CaptureState) : CaptureState × List Effect :=
  ({ st with isListening := false }, [Effect.setIsListening false])

/-- The platform delivers a result with the given transcript to the session in
`recognitionRef.current`: its `onresult` handler runs, with the `value` it captured when
`startListening` created it. -/
def resultDelivered (st : CaptureState) (transcript : String) : List Effect :=
  match st.recognitionRef with
  | some r => onresult r.value transcript
  | none => []

/-- The values of the language selector (`<option value="en-IN">` and so on). The state
`selectedTTSLang` starts at "en-IN" and is only set from this selector. -/
inductive TTSLang where
  | enIN
  | hiIN
  | mrIN
  | knIN
deriving DecidableEq, Repr

/-- The string of a selector value. -/
def TTSLang.code : TTSLang → String
  | .enIN => "en-IN"
  | .hiIN => "hi-IN"
  | .mrIN => "mr-IN"
  | .knIN => "kn-IN"

/-- The table `instructions`, read at a selector value. -/
def instructions : TTSLang → String
  | .enIN => "Please enter"
  | .hiIN => "कृपया दर्ज करें"
  | .mrIN => "कृपया प्रविष्ट करा"
  | .knIN => "ದಯವಿಟ್ಟು ನಮೂದಿಸಿ"

/-- The read `fieldLabels[fieldKey]?.[lang]` at a selector value, `none` for `undefined`.
The table has the one own key "assemblyConstituencyNo"; under any other key, also one that
names a property inherited from `Object.prototype`, nothing is found at a selector value. -/
def fieldLabels (fieldKey : String) (lang : TTSLang) : Option String :=
  if fieldKey = "assemblyConstituencyNo" then
    some (match lang with
      | .enIN => "Assembly Constituency Number"
      | .hiIN => "विधान सभा निर्वाचन क्षेत्र संख्या"
      | .mrIN => "विधानसभा मतदारसंघ क्रमांक"
      | .knIN => "ವಿಧಾನಸಭಾ ಕ್ಷೇತ್ರ ಸಂಖ್ಯೆ")
  else none

/-- The function `getLocalizedLabel`: `fieldLabels[fieldKey]?.[lang] || field.label`. -/
def getLocalizedLabel (field : Field) (fieldKey : String) (lang : TTSLang) : String :=
  match fieldLabels fieldKey lang with
  | some label => orString label field.label
  | none => field.label

/-- The function `speakFieldLabel`. -/
def speakFieldLabel (p : VoiceInputProps) (selectedTTSLang : TTSLang) : List Effect :=
  let instruction := orString (instructions selectedTTSLang) (instructions .enIN)
  let localizedLabel := getLocalizedLabel p.field p.field.key selectedTTSLang
  let textToSpeak := instruction ++ " " ++ localizedLabel
  [Effect.setIsSpeaking true, Effect.speak textToSpeak selectedTTSLang.code,
   Effect.after 3000 (Effect.setIsSpeaking false)]

/-- The body of the `useEffect` with dependencies `[selectedTTSLang, field.key]`: focus the
input (the ref is attached to the `Input` only, not to the `Textarea`) and start the
500 ms prompt timer. -/
def promptEffect (p : VoiceInputProps) : List Effect :=
  (if p.field.type = "textarea" then [] else [Effect.focus]) ++
    [Effect.after 500 Effect.speakFieldLabel]

/-- The cleanup function that `useEffect` returns: `clearTimeout(timeout)`,
`stopSpeaking()`, and `recognitionRef.current.stop()` when a session exists. -/
def promptCleanup (st : CaptureState) : List Effect :=
  [Effect.clearTimeout, Effect.stopSpeaking] ++
    (if st.recognitionRef.isSome then [Effect.recognitionStop] else [])

/-- A change of `field.key` (or of `selectedTTSLang`): React runs the cleanup of the
previous effect and then the effect for the new props. -/
def fieldChange (st : CaptureState) (next : VoiceInputProps) : List Effect :=
  promptCleanup st ++ promptEffect next

/-- The component unmounts: React runs the cleanup of the last effect. -/
def unmount (st : CaptureState) : List Effect :=
  promptCleanup st

/-! ## The form navigation controller -/

/-- The kinds of input a field descriptor can have. -/
inductive InputKind where
  | text
  | textarea
  | email
deriving DecidableEq, Repr

/-- Modelled from the spec: the record `FieldDescriptor` of the form navigation
controller, whose code (the parent of `VoiceInput`) is not among the sources. -/
structure FieldDescriptor where
  key : String
  label : String
  inputKind : InputKind
  sectionName : String
deriving DecidableEq, Repr

/-- Modelled from the spec: the record `FormSession` of the form navigation controller,
whose code (the parent of `VoiceInput`) is not among the sources. -/
structure FormSession where
  fields : List FieldDescriptor
  values : List (String × String)
  currentIndex : Nat
  ttsLanguage : String
deriving DecidableEq, Repr

/-- Modelled from the spec: the operation `goNext() -> bool` of the form navigation
controller, whose code (the parent of `VoiceInput`) is not among the sources:
"returns false (no-op) if `currentIndex` is at the last field and the caller has not
marked the field complete, else increments `currentIndex`, clamped to `len(fields)-1`".
`complete` is the caller's mark. -/
def goNext (s : FormSession) (complete : Bool) : Bool × FormSession :=
  if s.currentIndex = s.fields.length - 1 ∧ complete = false then (false, s)
  else (true, { s with currentIndex := min (s.currentIndex + 1) (s.fields.length - 1) })

/-- Modelled from the spec: the operation `goPrevious() -> bool` of the form navigation
controller, whose code (the parent of `VoiceInput`) is not among the sources:
"symmetric; clamped at 0", "`goPrevious()` from index 0 is a no-op returning false". -/
def goPrevious (s : FormSession) : Bool × FormSession :=
  if s.currentIndex = 0 then (false, s)
  else (true, { s with currentIndex := s.currentIndex - 1 })

/-! ## The page pages/NewCasePage.jsx -/

/-- The state `formData` of `NewCasePage`; every field is the string of a form control. -/
structure CaseFormData where
  title : String
  caseId : String
  applicationType : String
  description : String
  priority : String
deriving DecidableEq, Repr

/-- What `handleSubmit` of `NewCasePage` does, in order. -/
inductive PageEffect where
  | preventDefault
  | setError (message : String)
  | setIsSubmitting (flag : Bool)
  | createCase (caseData : CaseFormData)
  | navigate (path : String)
  | consoleError
deriving DecidableEq, Repr

/-- The function `handleSubmit` of `NewCasePage`. `outcome` is how the awaited
`createCase(formData)` ends: it resolves, or it rejects with an error whose
`response?.data?.error` is the given string, if any. -/
def handleSubmit (formData : CaseFormData) (outcome : Except (Option String) Unit) :
    List PageEffect :=
  PageEffect.preventDefault ::
    (if formData.title = "" ∨ formData.caseId = "" then
      [PageEffect.setError "Title and Case ID are required"]
    else
      [PageEffect.setIsSubmitting true, PageEffect.setError "",
        PageEffect.createCase formData] ++
      (match outcome with
        | .ok _ => [PageEffect.navigate "/track-cases"]
        | .error e =>
          [PageEffect.consoleError,
           PageEffect.setError (orString (e.getD "") "Failed to create case")]) ++
      [PageEffect.setIsSubmitting false])

/-! ## The backend vaani-nyay-backend/server.js -/

/-- An integer of magnitude below 2^53: a JavaScript number holds it exactly and its
`toString()` is its plain decimal digits. -/
abbrev SafeInteger := { n : Int // n.natAbs < 9007199254740992 }

/-- A field of the parsed JSON body `req.body`, as far as it is a scalar: absent
(`undefined`), `null`, a boolean, a number that is a safe integer, or a string. Other
numbers, arrays and objects are outside the model. -/
inductive JSValue where
  | undefined
  | null
  | bool (b : Bool)
  | number (n : SafeInteger)
  | string (s : String)
deriving DecidableEq, Repr

/-- Truthiness: `!v` is the negation of this. -/
def JSValue.truthy : JSValue → Bool
  | .undefined => false
  | .null => false
  | .bool b => b
  | .number n => n.val != 0
  | .string s => s != ""

/-- The `length` of a JavaScript string: its number of UTF-16 code units. -/
def utf16Length (s : String) : Nat :=
  s.data.foldl (fun n c => n + (if c.val.toNat < 65536 then 1 else 2)) 0

/-- The property read `v.length`: a number for a string, `undefined` (here `none`) for
a boolean or a number, a TypeError for `undefined` and `null`. -/
def JSValue.length : JSValue → Except JSError (Option Nat)
  | .string s => .ok (some (utf16Length s))
  | .bool _ => .ok none
  | .number _ => .ok none
  | .undefined => .error .typeError
  | .null => .error .typeError

/-- The comparison `v.length < n`: `undefined < n` is false. -/
def JSValue.lengthLt (v : JSValue) (n : Nat) : Except JSError Bool :=
  match v.length with
  | .ok (some len) => .ok (decide (len < n))
  | .ok none => .ok false
  | .error e => .error e

/-- The string Mongoose stores for a value assigned to a `String` path, and looks for
when the value stands in a filter: the value's `toString()`; nothing for `undefined` and
`null`. -/
def castString : JSValue → Option String
  | .string s => some s
  | .bool b => some (if b then "true" else "false")
  | .number n => some (toString n.val)
  | .undefined => none
  | .null => none

/-- A document of the `User` collection. `password` is the string whose bcrypt hash the
`pre('save')` hook stores; `lastLogin` is a time in milliseconds. -/
structure User where
  name : String
  email : String
  phone : String
  password : String
  lastLogin : Option Nat
deriving DecidableEq, Repr

/-- The key bcrypt works on: the UTF-8 bytes of the password followed by a zero byte,
repeated cyclically, of which the first 72 bytes are used. Two passwords with the same
key have the same hash under the same salt. -/
def bcryptKey (password : String) : List UInt8 :=
  let bytes := password.data.flatMap String.utf8EncodeChar ++ [0]
  (List.range 72).map fun i => bytes.getD (i % bytes.length) 0

/-- The method `comparePassword`, that is `bcrypt.compare(candidatePassword, this.password)`:
true exactly for a string with the bcrypt key of the string that was hashed (collisions
of the hash itself apart); for a candidate that is not a string the promise is rejected
with `Error("Illegal arguments: ..")`. -/
def comparePassword (user : User) (candidatePassword : JSValue) : Except JSError Bool :=
  match candidatePassword with
  | .string s => .ok (bcryptKey s == bcryptKey user.password)
  | _ => .error (.error "Illegal arguments")

/-- The body of a response: `{ error }`, or the success body with the token (a JWT
signed over the id of the user, here the position in the collection) and the public
fields of the user. -/
inductive ResponseBody where
  | error (message : String)
  | success (message : String) (tokenUserId : Nat) (name email phone : String)
deriving DecidableEq, Repr

/-- A response: status code and JSON body. -/
structure Response where
  status : Nat
  body : ResponseBody
deriving DecidableEq, Repr

/-- The body of `POST /api/auth/register`. -/
structure RegisterBody where
  name : JSValue
  email : JSValue
  phone : JSValue
  password : JSValue
  confirmPassword : JSValue
deriving DecidableEq, Repr

/-- The `try` block of `POST /api/auth/register` on the collection `users`: the response
and the collection afterwards, or the error thrown. -/
def registerTry (users : List User) (body : RegisterBody) :
    Except JSError (Response × List User) :=
  if !body.name.truthy || !body.email.truthy || !body.phone.truthy ||
      !body.password.truthy || !body.confirmPassword.truthy then
    .ok (⟨400, .error "All fields are required"⟩, users)
  else if body.password ≠ body.confirmPassword then
    .ok (⟨400, .error "Passwords do not match"⟩, users)
  else
    match body.password.lengthLt 8 with
    | .error e => .error e
    | .ok true => .ok (⟨400, .error "Password must be at least 8 characters long"⟩, users)
    | .ok false =>
      match users.find? (fun u =>
          castString body.email == some u.email || castString body.phone == some u.phone) with
      | some _ => .ok (⟨409, .error "User with this email or phone already exists"⟩, users)
      | none =>
        let user : User :=
          ⟨(castString body.name).getD "", (castString body.email).getD "",
            (castString body.phone).getD "", (castString body.password).getD "", none⟩
        .ok (⟨201, .success "User registered successfully" users.length
            user.name user.email user.phone⟩, users ++ [user])

/-- The handler of `POST /api/auth/register`: the `try` block, and the `catch` that answers
500 for an error that is not a Mongoose `ValidationError`. -/
def register (users : List User) (body : RegisterBody) : Response × List User :=
  match registerTry users body with
  | .ok r => r
  | .error _ => (⟨500, .error "Internal server error. Please try again later."⟩, users)

/-- The body of `POST /api/auth/login`. -/
structure LoginBody where
  email : JSValue
  password : JSValue
deriving DecidableEq, Repr

/-- The `try` block of `POST /api/auth/login` at the time `now`. -/
def loginTry (users : List User) (body : LoginBody) (now : Nat) :
    Except JSError (Response × List User) :=
  if !body.email.truthy || !body.password.truthy then
    .ok (⟨400, .error "Email and password are required"⟩, users)
  else
    match users.find? (fun u => castString body.email == some u.email) with
    | none => .ok (⟨401, .error "Invalid credentials"⟩, users)
    | some user =>
      match comparePassword user body.password with
      | .error e => .error e
      | .ok false => .ok (⟨401, .error "Invalid credentials"⟩, users)
      | .ok true =>
        let id := users.findIdx (fun u => castString body.email == some u.email)
        .ok (⟨200, .success "Login successful" id user.name user.email user.phone⟩,
          users.set id { user with lastLogin := some now })

/-- The handler of `POST /api/auth/login`: the `try` block and the `catch` that answers
500. -/
def login (users : List User) (body : LoginBody) (now : Nat) : Response × List User :=
  match loginTry users body now with
  | .ok r => r
  | .error _ => (⟨500, .error "Internal server error. Please try again later."⟩, users)

/-! ## Scenarios -/

/-- The browser without the record of the calls made so far: what later operations and
the user can observe. -/
def Browser.state (b : Browser) : Browser :=
  { b with calls := [] }

/-- A sequence of `speak` calls `(text, lang)` of the `useTTS` inside VoiceInput.tsx, one
after another; a call that throws ends the sequence. -/
def Inline.speakAll (b : Browser) : List (String × String) → Except JSError Browser
  | [] => .ok b
  | (text, lang) :: rest =>
    match Inline.speak b text lang with
    | .ok b1 => Inline.speakAll b1 rest
    | .error e => .error e

/-- Two `speak` calls of hooks/useTTS.ts, the second `d` milliseconds after the first,
followed by 100 more milliseconds, after which every pending timer has run. -/
def speakTwice (b : Browser) (t1 l1 : String) (o1 : TTSOptions) (d : Nat)
    (t2 l2 : String) (o2 : TTSOptions) : Except JSError Browser :=
  match speak b t1 l1 o1 with
  | .error e => .error e
  | .ok b1 =>
    match speak (advance b1 d) t2 l2 o2 with
    | .error e => .error e
    | .ok b2 => .ok (advance b2 100)

/-- The utterances passed to `synth.speak`, in order. -/
def spoken (calls : List Call) : List Utterance :=
  calls.filterMap fun c =>
    match c with
    | .speak u => some u
    | _ => none

/-! ## The vocabulary of the claims about voice selection -/

/-- A catalog voice matches a candidate: its `lang` equals the candidate, or starts
with the candidate's part before the first hyphen. -/
def Matches (v : Voice) (candidate : String) : Prop :=
  v.lang = candidate ∨ startsWith v.lang (splitFirst candidate) = true

instance (v : Voice) (candidate : String) : Decidable (Matches v candidate) := by
  unfold Matches; exact inferInstance

/-- The voice found for one candidate: the first catalog voice with that exact `lang`,
and when there is none the first one whose `lang` starts with the candidate's part before
the first hyphen. -/
def foundFor (voices : List Voice) (candidate : String) : Option Voice :=
  match voices.find? (fun v => v.lang == candidate) with
  | some v => some v
  | none => voices.find? (fun v => startsWith v.lang (splitFirst candidate))

/-- The earliest candidate whose part before the first hyphen starts the `lang` of some
catalog voice. -/
def firstMatching (voices : List Voice) (cands : List String) : Option String :=
  cands.find? fun c => voices.any fun v => startsWith v.lang (splitFirst c)

/-- A catalog as the platform's `getVoices()` returns it: the `lang` of a voice is the
language tag of an installed voice, so it does not start with the name of a property of
`Object.prototype`. -/
def PlatformCatalog (voices : List Voice) : Prop :=
  ∀ v ∈ voices, ∀ key ∈ objectPrototypeKeys, startsWith v.lang key = false

instance (voices : List Voice) : Decidable (PlatformCatalog voices) := by
  unfold PlatformCatalog; exact inferInstance

/-- The four languages with an entry of their own in `fallbackMap`. -/
def configuredLangs : List String := ["mr-IN", "kn-IN", "hi-IN", "en-IN"]

/-! ## Voice selection: general facts -/

theorem startsWith_splitFirst (c : String) : startsWith c (splitFirst c) = true := by
  unfold startsWith splitFirst
  rw [List.isPrefixOf_iff_prefix]
  exact List.takeWhile_prefix _

theorem matches_iff_startsWith (v : Voice) (c : String) :
    Matches v c ↔ startsWith v.lang (splitFirst c) = true := by
  constructor
  · rintro (h | h)
    · rw [h]; exact startsWith_splitFirst c
    · exact h
  · intro h; exact Or.inr h

theorem foundFor_eq_none_iff (voices : List Voice) (c : String) :
    foundFor voices c = none ↔ ∀ v ∈ voices, ¬ Matches v c := by
  unfold foundFor
  cases hex : voices.find? (fun v => v.lang == c) with
  | some w =>
    simp only [reduceCtorEq, false_iff]
    intro hall
    have hw := List.mem_of_find?_eq_some hex
    have hp := List.find?_some hex
    exact hall w hw (Or.inl (by simpa using hp))
  | none =>
    simp only [List.find?_eq_none]
    constructor
    · intro h v hv hm
      exact h v hv ((matches_iff_startsWith v c).1 hm)
    · intro h v hv hs
      exact h v hv (Or.inr hs)

theorem foundFor_mem {voices : List Voice} {c : String} {v : Voice}
    (h : foundFor voices c = some v) : v ∈ voices ∧ Matches v c := by
  unfold foundFor at h
  cases hex : voices.find? (fun v => v.lang == c) with
  | some w =>
    rw [hex] at h
    simp only [Option.some.injEq] at h
    subst h
    exact ⟨List.mem_of_find?_eq_some hex, Or.inl (by simpa using List.find?_some hex)⟩
  | none =>
    rw [hex] at h
    simp only at h
    have hp : startsWith v.lang (splitFirst c) = true :=
      @List.find?_some _ (fun w => startsWith w.lang (splitFirst c)) v voices h
    exact ⟨List.mem_of_find?_eq_some h, Or.inr hp⟩

theorem matchedVoice_cons (voices : List Voice) (c : String) (rest : List String) :
    matchedVoice voices (c :: rest) =
      match foundFor voices c with
      | some v => some v
      | none => matchedVoice voices rest := by
  unfold foundFor
  rw [matchedVoice]
  cases voices.find? (fun v => v.lang == c) with
  | some w => rfl
  | none =>
    cases voices.find? (fun v => startsWith v.lang (splitFirst c)) <;> rfl

theorem matchedVoice_eq_none_iff (voices : List Voice) (cands : List String) :
    matchedVoice voices cands = none ↔ ∀ c ∈ cands, ∀ v ∈ voices, ¬ Matches v c := by
  induction cands with
  | nil => simp [matchedVoice]
  | cons c rest ih =>
    rw [matchedVoice_cons]
    cases hf : foundFor voices c with
    | some w =>
      simp only [reduceCtorEq, false_iff]
      intro hall
      have hnone := (foundFor_eq_none_iff voices c).2 (hall c (List.mem_cons_self _ _))
      rw [hf] at hnone
      cases hnone
    | none =>
      simp only [List.mem_cons, forall_eq_or_imp]
      rw [ih]
      have := (foundFor_eq_none_iff voices c).1 hf
      exact ⟨fun h => ⟨this, h⟩, fun h => h.2⟩

/-- The loop returns the voice found for the earliest candidate that any catalog voice
matches. -/
theorem matchedVoice_eq_some_iff (voices : List Voice) (cands : List String) (v : Voice) :
    matchedVoice voices cands = some v ↔
      ∃ earlier c later, cands = earlier ++ c :: later ∧
        (∀ c' ∈ earlier, ∀ w ∈ voices, ¬ Matches w c') ∧ foundFor voices c = some v := by
  induction cands with
  | nil => simp [matchedVoice]
  | cons c rest ih =>
    rw [matchedVoice_cons]
    cases hf : foundFor voices c with
    | some w =>
      simp only [Option.some.injEq]
      constructor
      · intro h
        subst h
        exact ⟨[], c, rest, rfl, by simp, hf⟩
      · rintro ⟨earlier, c', later, heq, hno, hfound⟩
        cases earlier with
        | nil =>
          simp only [List.nil_append, List.cons.injEq] at heq
          rw [← heq.1, hf] at hfound
          exact Option.some.inj hfound
        | cons e es =>
          simp only [List.cons_append, List.cons.injEq] at heq
          have hm := foundFor_mem hf
          have hne := hno e (List.mem_cons_self _ _) w hm.1
          rw [← heq.1] at hne
          exact absurd hm.2 hne
    | none =>
      simp only
      rw [ih]
      constructor
      · rintro ⟨earlier, c', later, heq, hno, hfound⟩
        refine ⟨c :: earlier, c', later, by rw [heq]; rfl, ?_, hfound⟩
        intro c'' hc''
        rcases List.mem_cons.1 hc'' with h | h
        · rw [h]; exact (foundFor_eq_none_iff voices c).1 hf
        · exact hno c'' h
      · rintro ⟨earlier, c', later, heq, hno, hfound⟩
        cases earlier with
        | nil =>
          simp only [List.nil_append, List.cons.injEq] at heq
          rw [← heq.1, hf] at hfound
          cases hfound
        | cons e es =>
          simp only [List.cons_append, List.cons.injEq] at heq
          exact ⟨es, c', later, heq.2, fun c'' hc'' => hno c'' (List.mem_cons_of_mem _ hc''), hfound⟩

theorem matchedVoice_mem {voices : List Voice} {cands : List String} {v : Voice}
    (h : matchedVoice voices cands = some v) :
    v ∈ voices ∧ ∃ c ∈ cands, Matches v c := by
  obtain ⟨earlier, c, later, heq, _, hfound⟩ := (matchedVoice_eq_some_iff voices cands v).1 h
  have hm := foundFor_mem hfound
  exact ⟨hm.1, c, by rw [heq]; simp, hm.2⟩

/-- The candidate list is built for every `lang` that is not the name of a property
inherited from `Object.prototype`, and only for those. -/
theorem candidateLangs_ok_iff (lang : String) :
    (∃ cands, candidateLangs lang = .ok cands) ↔ fallbackMap lang ≠ .inherited := by
  unfold candidateLangs
  cases fallbackMap lang <;> simp

theorem selectVoice_ok {lang : String} {cands : List String} (voices : List Voice)
    (h : candidateLangs lang = .ok cands) :
    selectVoice lang voices = .ok (matchedVoice voices cands) := by
  unfold selectVoice
  rw [h]

theorem selectVoice_ok_inv {lang : String} {voices : List Voice} {r : Option Voice}
    (h : selectVoice lang voices = .ok r) :
    ∃ cands, candidateLangs lang = .ok cands ∧ r = matchedVoice voices cands := by
  unfold selectVoice at h
  cases hc : candidateLangs lang with
  | ok cands =>
    rw [hc] at h
    simp only [Except.ok.injEq] at h
    exact ⟨cands, rfl, h.symm⟩
  | error e =>
    rw [hc] at h
    cases h

/-- For a `lang` whose candidate list is built, a catalog voice with exactly that `lang`
wins: the first such voice is selected. -/
theorem selectVoice_exact {lang : String} {cands : List String} (voices : List Voice)
    (hc : candidateLangs lang = .ok cands) (hex : ∃ v ∈ voices, v.lang = lang) :
    selectVoice lang voices = .ok (voices.find? (fun v => v.lang == lang)) := by
  have hhead : ∃ rest, cands = lang :: rest := by
    unfold candidateLangs at hc
    cases hf : fallbackMap lang with
    | own chain => rw [hf] at hc; exact ⟨chain, by injection hc with h; exact h.symm⟩
    | undefined => rw [hf] at hc; exact ⟨_, by injection hc with h; exact h.symm⟩
    | inherited => rw [hf] at hc; cases hc
  obtain ⟨rest, rfl⟩ := hhead
  rw [selectVoice_ok voices hc, matchedVoice]
  cases hfind : voices.find? (fun v => v.lang == lang) with
  | some w => rfl
  | none =>
    obtain ⟨v, hv, hl⟩ := hex
    rw [List.find?_eq_none] at hfind
    exact absurd (by simpa using hl) (hfind v hv)

/-- For a `lang` whose candidate list is built, no voice is selected exactly when no
catalog voice matches any candidate. -/
theorem selectVoice_none_iff {lang : String} {cands : List String} (voices : List Voice)
    (hc : candidateLangs lang = .ok cands) :
    selectVoice lang voices = .ok none ↔ ∀ c ∈ cands, ∀ v ∈ voices, ¬ Matches v c := by
  rw [selectVoice_ok voices hc, ← matchedVoice_eq_none_iff]
  constructor
  · intro h; injection h
  · intro h; rw [h]

/-! ## Claims C1 to C5: voice selection of hooks/useTTS.ts -/

/-- C1: the example of the claim holds (for "mr-IN" and a catalog with the langs "en-US",
"hi-IN" the "hi-IN" voice is selected), but for the language tag "toString" no voice is
selected at all: building the candidate list throws a TypeError, although the voice
"en-US" is the one found for the earliest matching candidate of
["toString", "en-IN", "en-US"]. -/
theorem C1_selection_throws_at_toString :
    selectVoice "mr-IN" [⟨"a", "en-US", true, true⟩, ⟨"b", "hi-IN", true, false⟩] =
        .ok (some ⟨"b", "hi-IN", true, false⟩) ∧
      selectVoice "toString" [⟨"a", "en-US", true, true⟩] = .error .typeError ∧
      matchedVoice [⟨"a", "en-US", true, true⟩] ["toString", "en-IN", "en-US"] =
        some ⟨"a", "en-US", true, true⟩ := by
  decide

theorem candidateLangs_ok_of_not_key {lang : String} (h : lang ∉ objectPrototypeKeys) :
    ∃ cands, candidateLangs lang = .ok cands := by
  rw [candidateLangs_ok_iff]
  unfold fallbackMap
  split_ifs <;> simp

/-- On a platform catalog, a `lang` whose subtag starts the lang of some voice is not the
name of a property inherited from `Object.prototype`. -/
theorem platformCatalog_not_key {voices : List Voice} {lang : String}
    (hcat : PlatformCatalog voices)
    (h : ∃ v ∈ voices, startsWith v.lang (splitFirst lang) = true) :
    lang ∉ objectPrototypeKeys := by
  intro hmem
  have hkey : ∀ key ∈ objectPrototypeKeys, splitFirst key = key := by decide
  obtain ⟨v, hv, hs⟩ := h
  rw [hkey lang hmem] at hs
  rw [hcat v hv lang hmem] at hs
  cases hs

/-- C2: for every lang and every platform catalog with a voice whose lang equals lang
exactly, the selected voice is the first catalog voice whose lang equals lang, wherever
voices that share only the primary subtag stand in the catalog. -/
theorem C2_exact_match_preferred (lang : String) (voices : List Voice)
    (hcat : PlatformCatalog voices) (hex : ∃ v ∈ voices, v.lang = lang) :
    ∃ v, selectVoice lang voices = .ok (some v) ∧ v.lang = lang ∧
      voices.find? (fun w => w.lang == lang) = some v := by
  have hnk : lang ∉ objectPrototypeKeys := by
    apply platformCatalog_not_key hcat
    obtain ⟨v, hv, hl⟩ := hex
    exact ⟨v, hv, by rw [hl]; exact startsWith_splitFirst lang⟩
  obtain ⟨cands, hc⟩ := candidateLangs_ok_of_not_key hnk
  rw [selectVoice_exact voices hc hex]
  cases hfind : voices.find? (fun w => w.lang == lang) with
  | none =>
    obtain ⟨v, hv, hl⟩ := hex
    rw [List.find?_eq_none] at hfind
    exact absurd (by simpa using hl) (hfind v hv)
  | some w =>
    have hw : (w.lang == lang) = true :=
      @List.find?_some _ (fun w => w.lang == lang) w voices hfind
    exact ⟨w, rfl, by simpa using hw, rfl⟩

/-- C2 at "en-IN" with the catalog langs "en-US", "en-IN", "en-IN": the first "en-IN"
voice is selected although the "en-US" voice stands ahead of it. -/
theorem C2_exact_match_preferred_witness :
    ∃ v, selectVoice "en-IN" [⟨"a", "en-US", true, true⟩, ⟨"b", "en-IN", true, false⟩,
          ⟨"c", "en-IN", false, false⟩] = .ok (some v) ∧
      v.lang = "en-IN" ∧
      [(⟨"a", "en-US", true, true⟩ : Voice), ⟨"b", "en-IN", true, false⟩,
        ⟨"c", "en-IN", false, false⟩].find? (fun w => w.lang == "en-IN") = some v :=
  C2_exact_match_preferred "en-IN"
    [⟨"a", "en-US", true, true⟩, ⟨"b", "en-IN", true, false⟩, ⟨"c", "en-IN", false, false⟩]
    (by decide) ⟨⟨"b", "en-IN", true, false⟩, by decide, rfl⟩

/-- C3: for the language tag "valueOf" and a catalog with an "en-IN" voice, that voice
matches the candidate "en-IN" of the default chain, yet the selection yields no voice: it
throws a TypeError. -/
theorem C3_no_voice_although_candidate_matches :
    Matches ⟨"a", "en-IN", true, true⟩ "en-IN" ∧
      fallbackMap "valueOf" = .inherited ∧
      selectVoice "valueOf" [⟨"a", "en-IN", true, true⟩] = .error .typeError ∧
      selectVoice "valueOf" [⟨"a", "en-IN", true, true⟩] ≠
        .ok (some ⟨"a", "en-IN", true, true⟩) := by
  decide

/-- C4: for each of the four languages with a configured chain and every catalog holding
a voice whose lang equals a member of the candidate list, the selection returns a voice
of the catalog, and that voice matches a candidate of the list. -/
theorem C4_configured_lang_selects_a_voice (lang : String) (voices : List Voice)
    (hlang : lang ∈ configuredLangs)
    (hcat : ∃ v ∈ voices, ∃ cands, candidateLangs lang = .ok cands ∧ v.lang ∈ cands) :
    ∃ v chain, fallbackMap lang = .own chain ∧
      candidateLangs lang = .ok (lang :: chain) ∧
      selectVoice lang voices = .ok (some v) ∧ v ∈ voices ∧
      ∃ c ∈ lang :: chain, Matches v c := by
  have hown : ∃ chain, fallbackMap lang = .own chain := by
    simp only [configuredLangs, List.mem_cons, List.mem_singleton, List.not_mem_nil,
      or_false] at hlang
    rcases hlang with h | h | h | h <;> subst h <;> exact ⟨_, rfl⟩
  obtain ⟨chain, hchain⟩ := hown
  have hc : candidateLangs lang = .ok (lang :: chain) := by
    unfold candidateLangs; rw [hchain]
  obtain ⟨w, hw, cands, hcands, hmem⟩ := hcat
  rw [hc] at hcands
  injection hcands with hcands
  subst hcands
  cases hsel : matchedVoice voices (lang :: chain) with
  | none =>
    have hno := (matchedVoice_eq_none_iff voices (lang :: chain)).1 hsel
    exact absurd (Or.inl rfl) (hno w.lang hmem w hw)
  | some v =>
    have hm := matchedVoice_mem hsel
    exact ⟨v, chain, hchain, hc, by rw [selectVoice_ok voices hc, hsel], hm.1, hm.2⟩

/-- C4 at "mr-IN" with the catalog langs "en-US", "hi-IN". -/
theorem C4_configured_lang_selects_a_voice_witness :
    ∃ v chain, fallbackMap "mr-IN" = .own chain ∧
      candidateLangs "mr-IN" = .ok ("mr-IN" :: chain) ∧
      selectVoice "mr-IN" [⟨"a", "en-US", true, true⟩, ⟨"b", "hi-IN", true, false⟩] =
        .ok (some v) ∧
      v ∈ [(⟨"a", "en-US", true, true⟩ : Voice), ⟨"b", "hi-IN", true, false⟩] ∧
      ∃ c ∈ "mr-IN" :: chain, Matches v c :=
  C4_configured_lang_selects_a_voice "mr-IN"
    [⟨"a", "en-US", true, true⟩, ⟨"b", "hi-IN", true, false⟩] (by decide)
    ⟨⟨"b", "hi-IN", true, false⟩, by decide,
      ["mr-IN", "mr-IN", "mr", "hi-IN", "hi", "en-IN", "en-US"], rfl, by decide⟩

/-- C5 fails as stated: for "en-IN" and a catalog whose only voice has lang "en_US" (the
form some platforms report) that voice is selected, and its part before the first hyphen,
"en_US", is the primary subtag of no candidate. -/
theorem C5_primary_subtag_counterexample :
    ¬ (∀ (lang : String) (voices : List Voice) (v : Voice),
        selectVoice lang voices = .ok (some v) →
        ∃ cands, candidateLangs lang = .ok cands ∧
          ∃ c ∈ cands, splitFirst v.lang = splitFirst c) := by
  intro h
  obtain ⟨cands, hc, c, hmem, heq⟩ :=
    h "en-IN" [⟨"a", "en_US", true, true⟩] ⟨"a", "en_US", true, true⟩ (by decide)
  have hc2 : candidateLangs "en-IN" = .ok ["en-IN", "en-IN", "en-US", "en-GB", "en"] := by
    decide
  rw [hc2] at hc
  injection hc with hc
  subst hc
  revert heq
  revert c
  decide

/-- C5, amended: whenever the selection returns a voice, the lang of that voice starts
with the part before the first hyphen of some candidate. -/
theorem C5_selected_lang_starts_with_candidate_subtag (lang : String) (voices : List Voice)
    (v : Voice) (h : selectVoice lang voices = .ok (some v)) :
    v ∈ voices ∧ ∃ cands, candidateLangs lang = .ok cands ∧
      ∃ c ∈ cands, startsWith v.lang (splitFirst c) = true := by
  obtain ⟨cands, hc, hr⟩ := selectVoice_ok_inv h
  obtain ⟨hv, c, hcm, hm⟩ := matchedVoice_mem hr.symm
  exact ⟨hv, cands, hc, c, hcm, (matches_iff_startsWith v c).1 hm⟩

/-- C5, amended, at "en-IN" with a voice whose lang is "en_US". -/
theorem C5_selected_lang_starts_with_candidate_subtag_witness :
    (⟨"a", "en_US", true, true⟩ : Voice) ∈ [(⟨"a", "en_US", true, true⟩ : Voice)] ∧
      ∃ cands, candidateLangs "en-IN" = .ok cands ∧
        ∃ c ∈ cands, startsWith (⟨"a", "en_US", true, true⟩ : Voice).lang (splitFirst c) = true :=
  C5_selected_lang_starts_with_candidate_subtag "en-IN" [⟨"a", "en_US", true, true⟩]
    ⟨"a", "en_US", true, true⟩ (by decide)

/-! ## Claims C6 and C7: cancellation -/

/-- Two `speak` calls less than 100 ms apart on a loaded catalog: both utterances reach
the synthesizer, the first call's ahead of the second's. -/
theorem speakTwice_queue (voices : List Voice) (t1 l1 t2 l2 : String) (o1 o2 : TTSOptions)
    (c1 c2 : List String) (d : Nat) (hv : voices ≠ []) (hd : d < 100)
    (h1 : candidateLangs l1 = .ok c1) (h2 : candidateLangs l2 = .ok c2) :
    ∃ b, speakTwice (Browser.idle voices) t1 l1 o1 d t2 l2 o2 = .ok b ∧ b.timers = [] ∧
      b.queue = [mkUtterance t1 l1 o1 (matchedVoice voices c1),
                 mkUtterance t2 l2 o2 (matchedVoice voices c2)] := by
  have hlen : ¬ voices.length = 0 := by
    intro h; exact hv (List.length_eq_zero.1 h)
  have e1 : ¬ (100 ≤ d) := by omega
  simp [speakTwice, speak, speakNow, Browser.idle, advance, insertTimer, hlen,
    selectVoice_ok voices h1, selectVoice_ok voices h2, e1]

/-- C6: `speak("first", "hi-IN")` and, 50 ms later, `speak("second", "hi-IN")` on a
catalog with one "hi-IN" voice: once the timers have run the synthesizer holds the
utterance for "first" (playing) and behind it the one for "second"; both were passed to
`synth.speak`, so "first" is spoken. -/
theorem C6_both_utterances_are_spoken :
    ∃ b, speakTwice (Browser.idle [⟨"a", "hi-IN", true, true⟩]) "first" "hi-IN"
          TTSOptions.empty 50 "second" "hi-IN" TTSOptions.empty = .ok b ∧
      b.timers = [] ∧
      b.queue.map (fun u => u.text) = ["first", "second"] ∧
      (spoken b.calls).map (fun u => u.text) = ["first", "second"] :=
  ⟨_, rfl, by decide, by decide, by decide⟩

/-- C7 fails as stated: `speak` on an empty catalog registers a `voiceschanged` listener;
after `stopSpeaking()` has returned, the arrival of the voices passes the utterance of
that earlier call to `synth.speak`. This holds for the `useTTS` inside VoiceInput.tsx
(at once) and for hooks/useTTS.ts (100 ms later). -/
theorem C7_stop_does_not_cancel_waiting_speak :
    (∃ b1, Inline.speak (Browser.idle []) "prompt" "hi-IN" = .ok b1 ∧
        spoken (Inline.stopSpeaking b1).calls = [] ∧
        (spoken (Inline.voicesChanged (Inline.stopSpeaking b1)
            [⟨"a", "hi-IN", true, true⟩]).calls).map (fun u => u.text) = ["prompt"]) ∧
      (∃ b1, speak (Browser.idle []) "prompt" "hi-IN" TTSOptions.empty = .ok b1 ∧
        spoken (stopSpeaking b1).calls = [] ∧
        (spoken (advance (voicesChanged (stopSpeaking b1)
            [⟨"a", "hi-IN", true, true⟩]) 100).calls).map (fun u => u.text) = ["prompt"]) :=
  ⟨⟨_, rfl, by decide, by decide⟩, ⟨_, rfl, by decide, by decide⟩⟩

/-- C7, amended: with the speech subsystem present, `stopSpeaking` empties the
synthesizer's queue (nothing is playing or queued when it returns) and leaves the
`voiceschanged` listeners of earlier `speak` calls registered; this holds for
hooks/useTTS.ts and for the `useTTS` inside VoiceInput.tsx. -/
theorem C7_stop_empties_the_synthesizer (b : Browser) (h : b.hasSynth = true) :
    (stopSpeaking b).queue = [] ∧ (stopSpeaking b).listeners = b.listeners ∧
      (Inline.stopSpeaking b).queue = [] ∧ (Inline.stopSpeaking b).listeners = b.listeners := by
  simp [stopSpeaking, Inline.stopSpeaking, h]

/-- C7, amended, on a browser whose synthesizer holds an utterance while a listener
waits. -/
theorem C7_stop_empties_the_synthesizer_witness :
    (stopSpeaking ⟨true, [], [Inline.mkUtterance "x" "hi-IN" none], [],
        [⟨"y", "hi-IN", TTSOptions.empty⟩], 0, [], true⟩).queue = [] ∧
      (stopSpeaking ⟨true, [], [Inline.mkUtterance "x" "hi-IN" none], [],
        [⟨"y", "hi-IN", TTSOptions.empty⟩], 0, [], true⟩).listeners =
        [⟨"y", "hi-IN", TTSOptions.empty⟩] ∧
      (Inline.stopSpeaking ⟨true, [], [Inline.mkUtterance "x" "hi-IN" none], [],
        [⟨"y", "hi-IN", TTSOptions.empty⟩], 0, [], true⟩).queue = [] ∧
      (Inline.stopSpeaking ⟨true, [], [Inline.mkUtterance "x" "hi-IN" none], [],
        [⟨"y", "hi-IN", TTSOptions.empty⟩], 0, [], true⟩).listeners =
        [⟨"y", "hi-IN", TTSOptions.empty⟩] :=
  C7_stop_empties_the_synthesizer
    ⟨true, [], [Inline.mkUtterance "x" "hi-IN" none], [],
      [⟨"y", "hi-IN", TTSOptions.empty⟩], 0, [], true⟩ rfl

/-! ## Claims C8 to C10: the voice-input form -/

/-- C8: `startListening` runs while the field is empty and the user types "typed" before
the transcript "spoken" is delivered: `onChange` receives "spoken" alone, not
"typed spoken", and the value "typed" of the field is not a prefix of it. When the value
has not changed since `startListening`, value, one space and transcript are passed. -/
theorem C8_transcript_not_appended_to_current_value :
    resultDelivered
        (startListening ⟨true, false⟩ (fun _ => "") "hi-IN"
          ⟨"", "", ⟨"k", "K", "text", "s", none⟩, false, false, false, 0, 2, none⟩
          ⟨false, none⟩).1 "spoken" = [Effect.onChange "spoken"] ∧
      onresultValue "typed" "spoken" = "typed spoken" ∧
      startsWith "spoken" "typed" = false ∧
      resultDelivered
        (startListening ⟨true, false⟩ (fun _ => "") "hi-IN"
          ⟨"typed", "", ⟨"k", "K", "text", "s", none⟩, true, false, false, 0, 2, none⟩
          ⟨false, none⟩).1 "spoken" = [Effect.onChange "typed spoken"] := by
  decide

/-- The result handler passes to `onChange` the transcript alone when the value it
captured is empty and otherwise that value, one space and the transcript; the result
starts with the captured value. -/
theorem onresult_appends_to_captured_value (v t : String) :
    onresult v t = [Effect.onChange (if v = "" then t else v ++ " " ++ t)] ∧
      startsWith (onresultValue v t) v = true := by
  constructor
  · unfold onresult onresultValue
    by_cases hv : v = ""
    · subst hv; simp
    · simp [hv]
  · unfold startsWith onresultValue
    rw [List.isPrefixOf_iff_prefix]
    simp only [String.data_append, List.append_assoc]
    exact List.prefix_append _ _

theorem captures_go (ts : List String) (acc : String) (hacc : acc ≠ "") :
    captures acc ts = String.intercalate.go acc " " ts := by
  induction ts generalizing acc with
  | nil => rfl
  | cons t rest ih =>
    have hne : acc ++ " " ++ t ≠ "" := by
      intro h
      have hlen := congrArg String.length h
      simp only [String.length_append] at hlen
      have h1 : " ".length = 1 := rfl
      have h0 : "".length = 0 := rfl
      omega
    have hstep : onresultValue acc t = acc ++ " " ++ t := by
      simp [onresultValue, hacc]
    show captures (onresultValue acc t) rest = String.intercalate.go (acc ++ " " ++ t) " " rest
    rw [hstep]
    exact ih _ hne

/-- C9: starting from the empty value, captures of non-empty transcripts made one after
another leave the transcripts joined by single spaces. -/
theorem C9_captures_accumulate (t : String) (ts : List String)
    (h : ∀ x ∈ t :: ts, x ≠ "") :
    captures "" (t :: ts) = " ".intercalate (t :: ts) := by
  have ht : t ≠ "" := h t (List.mem_cons_self _ _)
  have h0 : onresultValue "" t = t := by simp [onresultValue]
  show captures (onresultValue "" t) ts = String.intercalate.go t " " ts
  rw [h0]
  exact captures_go ts t ht

/-- C9 at "hello" then "world". -/
theorem C9_captures_accumulate_witness :
    (∀ x ∈ ["hello", "world"], x ≠ "") ∧ captures "" ["hello", "world"] = "hello world" :=
  ⟨by decide, C9_captures_accumulate "hello" ["world"] (by decide)⟩

/-- C10: `goNext` on the last field index with the field not marked complete returns
false and leaves the session (so `currentIndex`) unchanged; in `VoiceInput`, with
`canGoNext` false (on the last field as on any other), a click on the Next/Preview button
runs no handler, so `onNext` is not invoked. -/
theorem C10_goNext_noop_on_last_field (s : FormSession) (p : VoiceInputProps)
    (hlast : s.currentIndex = s.fields.length - 1) (hgate : p.canGoNext = false) :
    goNext s false = (false, s) ∧ (goNext s false).2.currentIndex = s.currentIndex ∧
      nextButtonClick p = [] ∧ Effect.after 300 Effect.onNext ∉ nextButtonClick p := by
  simp [goNext, nextButtonClick, hlast, hgate]

/-- C10 on a form of two fields at index 1. -/
theorem C10_goNext_noop_on_last_field_witness :
    goNext ⟨[⟨"a", "A", .text, "s"⟩, ⟨"b", "B", .text, "s"⟩], [], 1, "hi-IN"⟩ false =
        (false, ⟨[⟨"a", "A", .text, "s"⟩, ⟨"b", "B", .text, "s"⟩], [], 1, "hi-IN"⟩) ∧
      (goNext ⟨[⟨"a", "A", .text, "s"⟩, ⟨"b", "B", .text, "s"⟩], [], 1, "hi-IN"⟩
        false).2.currentIndex = 1 ∧
      nextButtonClick ⟨"", "", ⟨"b", "B", "text", "s", none⟩, false, true, true, 1, 2, none⟩ =
        [] ∧
      Effect.after 300 Effect.onNext ∉
        nextButtonClick ⟨"", "", ⟨"b", "B", "text", "s", none⟩, false, true, true, 1, 2, none⟩ :=
  C10_goNext_noop_on_last_field
    ⟨[⟨"a", "A", .text, "s"⟩, ⟨"b", "B", .text, "s"⟩], [], 1, "hi-IN"⟩
    ⟨"", "", ⟨"b", "B", "text", "s", none⟩, false, true, true, 1, 2, none⟩ rfl rfl

/-! ## Claims C11 and C12: navigation handlers -/

/-- C11: `goPrevious` at index 0 returns false and leaves the session unchanged, so
`currentIndex` stays 0; in `VoiceInput`, with `canGoPrevious` false, a click on the
Previous button runs no handler, so `onPrevious` is not invoked, at once or later. -/
theorem C11_goPrevious_noop_at_first_field (s : FormSession) (p : VoiceInputProps)
    (hfirst : s.currentIndex = 0) (hgate : p.canGoPrevious = false) :
    goPrevious s = (false, s) ∧ (goPrevious s).2.currentIndex = 0 ∧
      previousButtonClick p = [] ∧
      Effect.onPrevious ∉ (previousButtonClick p).map Effect.core := by
  simp [goPrevious, previousButtonClick, hfirst, hgate]

/-- C11 on a form of two fields at index 0. -/
theorem C11_goPrevious_noop_at_first_field_witness :
    goPrevious ⟨[⟨"a", "A", .text, "s"⟩, ⟨"b", "B", .text, "s"⟩], [], 0, "hi-IN"⟩ =
        (false, ⟨[⟨"a", "A", .text, "s"⟩, ⟨"b", "B", .text, "s"⟩], [], 0, "hi-IN"⟩) ∧
      (goPrevious ⟨[⟨"a", "A", .text, "s"⟩, ⟨"b", "B", .text, "s"⟩], [], 0,
        "hi-IN"⟩).2.currentIndex = 0 ∧
      previousButtonClick
        ⟨"", "", ⟨"a", "A", "text", "s", none⟩, true, false, false, 0, 2, none⟩ = [] ∧
      Effect.onPrevious ∉ (previousButtonClick
        ⟨"", "", ⟨"a", "A", "text", "s", none⟩, true, false, false, 0, 2, none⟩).map
          Effect.core :=
  C11_goPrevious_noop_at_first_field
    ⟨[⟨"a", "A", .text, "s"⟩, ⟨"b", "B", .text, "s"⟩], [], 0, "hi-IN"⟩
    ⟨"", "", ⟨"a", "A", "text", "s", none⟩, true, false, false, 0, 2, none⟩ rfl rfl

/-- C12: for every key press, `handleKeyPress` schedules `onNext` (after 300 ms) exactly
when the key is "Enter" and `canGoNext` is true, and it never leads to `onPrevious`. -/
theorem C12_key_press_is_gated (p : VoiceInputProps) (key : String) :
    (Effect.after 300 Effect.onNext ∈ handleKeyPress p key ↔
        key = "Enter" ∧ p.canGoNext = true) ∧
      (Effect.onNext ∈ (handleKeyPress p key).map Effect.core ↔
        key = "Enter" ∧ p.canGoNext = true) ∧
      Effect.onPrevious ∉ (handleKeyPress p key).map Effect.core := by
  unfold handleKeyPress
  by_cases h : key = "Enter" ∧ p.canGoNext = true
  · simp [h, Effect.core]
  · simp [h]

/-! ## Claims C13 and C14: cancel before speak, deferred speech -/

/-- With the synthesizer present, a loaded catalog and a `lang` whose candidate list is
built, the inline `speak` issues `synth.cancel()` and then `synth.speak(utterance)`, and
the synthesizer holds that utterance alone. -/
theorem Inline.speak_loaded (b : Browser) (text lang : String) (cands : List String)
    (hs : b.hasSynth = true) (hv : b.voices ≠ [])
    (hc : Inline.candidateLangs lang = .ok cands) :
    Inline.speak b text lang = .ok { b with
      queue := [Inline.mkUtterance text lang (Inline.matchedVoice b.voices cands)]
      calls := b.calls ++ [Call.cancel,
        Call.speak (Inline.mkUtterance text lang (Inline.matchedVoice b.voices cands))] } := by
  have hlen : ¬ b.voices.length = 0 := fun h => hv (List.length_eq_zero.1 h)
  simp [Inline.speak, Inline.speakNow, Inline.selectVoice, hs, hlen, hc]

/-- After a non-empty sequence of inline `speak` calls whose candidate lists are all built,
the synthesizer holds one utterance, the one for the text of the last call. -/
theorem Inline.speakAll_queue (cs : List (String × String)) (b : Browser)
    (text lang : String) (hs : b.hasSynth = true) (hv : b.voices ≠ [])
    (hall : ∀ c ∈ cs ++ [(text, lang)], ∃ cands, Inline.candidateLangs c.2 = .ok cands) :
    ∃ b1 v, Inline.speakAll b (cs ++ [(text, lang)]) = .ok b1 ∧
      b1.queue = [Inline.mkUtterance text lang v] := by
  induction cs generalizing b with
  | nil =>
    obtain ⟨cands, hc⟩ := hall (text, lang) (by simp)
    refine ⟨{ b with
      queue := [Inline.mkUtterance text lang (Inline.matchedVoice b.voices cands)]
      calls := b.calls ++ [Call.cancel,
        Call.speak (Inline.mkUtterance text lang (Inline.matchedVoice b.voices cands))] },
      Inline.matchedVoice b.voices cands, ?_, rfl⟩
    simp only [List.nil_append, Inline.speakAll]
    rw [Inline.speak_loaded b text lang cands hs hv hc]
  | cons c rest ih =>
    obtain ⟨t, l⟩ := c
    obtain ⟨cands, hc⟩ := hall (t, l) (by simp)
    simp only [List.cons_append, Inline.speakAll]
    rw [Inline.speak_loaded b t l cands hs hv hc]
    exact ih _ hs hv (fun c hcm => hall c (List.mem_cons_of_mem _ hcm))

/-- The candidate list of the inline `useTTS` is built for each value of the language
selector. -/
theorem Inline.candidateLangs_code (lang : TTSLang) :
    ∃ cands, Inline.candidateLangs lang.code = .ok cands := by
  cases lang <;> exact ⟨_, rfl⟩

/-- C13: the inline `speak` is called by `speakFieldLabel` alone, with a value of the
language selector. With voices loaded every such call issues `synth.cancel()` and then
`synth.speak(utterance)`, these two calls and no other, and after any non-empty sequence
of such calls the synthesizer holds one utterance, the one for the text of the last
call. -/
theorem C13_cancel_then_speak (b : Browser) (earlier : List (String × TTSLang))
    (text : String) (lang : TTSLang) (hs : b.hasSynth = true) (hv : b.voices ≠ []) :
    (∃ u, Inline.speak b text lang.code =
          .ok { b with queue := [u], calls := b.calls ++ [Call.cancel, Call.speak u] } ∧
        u.text = text ∧ u.lang = lang.code) ∧
      ∃ b1 u, Inline.speakAll b
          (earlier.map (fun c => (c.1, c.2.code)) ++ [(text, lang.code)]) = .ok b1 ∧
        b1.queue = [u] ∧ u.text = text := by
  constructor
  · obtain ⟨cands, hc⟩ := Inline.candidateLangs_code lang
    exact ⟨_, Inline.speak_loaded b text lang.code cands hs hv hc, rfl, rfl⟩
  · have hall : ∀ c ∈ earlier.map (fun c => (c.1, c.2.code)) ++ [(text, lang.code)],
        ∃ cands, Inline.candidateLangs c.2 = .ok cands := by
      intro c hc
      rw [List.mem_append] at hc
      rcases hc with hc | hc
      · obtain ⟨c0, _, rfl⟩ := List.mem_map.1 hc
        exact Inline.candidateLangs_code c0.2
      · rw [List.mem_singleton] at hc
        subst hc
        exact Inline.candidateLangs_code lang
    obtain ⟨b1, v, hb1, hq⟩ := Inline.speakAll_queue _ b text lang.code hs hv hall
    exact ⟨b1, _, hb1, hq, rfl⟩

/-- C13 at the calls ("first", hi-IN) and then ("second", en-IN) on a catalog with one
"hi-IN" voice. -/
theorem C13_cancel_then_speak_witness :
    (∃ u, Inline.speak (Browser.idle [⟨"a", "hi-IN", true, true⟩]) "second"
          TTSLang.enIN.code =
          .ok { Browser.idle [⟨"a", "hi-IN", true, true⟩] with
            queue := [u]
            calls := (Browser.idle [⟨"a", "hi-IN", true, true⟩]).calls ++
              [Call.cancel, Call.speak u] } ∧
        u.text = "second" ∧ u.lang = TTSLang.enIN.code) ∧
      ∃ b1 u, Inline.speakAll (Browser.idle [⟨"a", "hi-IN", true, true⟩])
          ([("first", TTSLang.hiIN)].map (fun c => (c.1, c.2.code)) ++
            [("second", TTSLang.enIN.code)]) = .ok b1 ∧
        b1.queue = [u] ∧ u.text = "second" :=
  C13_cancel_then_speak (Browser.idle [⟨"a", "hi-IN", true, true⟩])
    [("first", TTSLang.hiIN)] "second" TTSLang.enIN rfl (by decide)

/-- For a `lang` whose candidate list is built: `speak` of hooks/useTTS.ts on an empty
catalog only registers a listener; the first `voiceschanged` runs `speakNow` once (one
cancel, one pending utterance) and removes the listener; a second `voiceschanged` adds
nothing. -/
theorem speak_deferred_once (text lang : String) (options : TTSOptions)
    (cands : List String) (voices voices2 : List Voice)
    (hc : candidateLangs lang = .ok cands) :
    ∃ b1, speak (Browser.idle []) text lang options = .ok b1 ∧
      b1.calls = [] ∧ b1.timers = [] ∧ b1.listeners = [⟨text, lang, options⟩] ∧
      (voicesChanged b1 voices).listeners = [] ∧
      (voicesChanged b1 voices).timers =
        [⟨100, mkUtterance text lang options (matchedVoice voices cands)⟩] ∧
      (voicesChanged (voicesChanged b1 voices) voices2).timers =
        (voicesChanged b1 voices).timers := by
  refine ⟨_, rfl, rfl, rfl, rfl, ?_, ?_, ?_⟩ <;>
    simp [voicesChanged, speakNow, selectVoice_ok _ hc, insertTimer, Browser.idle]

/-- C14: `speak("prompt", "toString")` on an empty catalog registers a listener and
issues no call; at each `voiceschanged` the listener throws a TypeError before it speaks
and before it removes itself: the text is never passed to the synthesizer and the
listener stays registered. This holds for hooks/useTTS.ts and for the `useTTS` inside
VoiceInput.tsx. -/
theorem C14_listener_throws_at_toString :
    (∃ b1, speak (Browser.idle []) "prompt" "toString" TTSOptions.empty = .ok b1 ∧
        b1.calls = [] ∧ b1.listeners = [⟨"prompt", "toString", TTSOptions.empty⟩] ∧
        (voicesChanged b1 [⟨"a", "hi-IN", true, true⟩]).listeners = b1.listeners ∧
        (advance (voicesChanged (voicesChanged b1 [⟨"a", "hi-IN", true, true⟩])
          [⟨"a", "hi-IN", true, true⟩]) 100).calls = []) ∧
      (∃ b1, Inline.speak (Browser.idle []) "prompt" "toString" = .ok b1 ∧
        b1.calls = [] ∧ b1.listeners = [⟨"prompt", "toString", TTSOptions.empty⟩] ∧
        (Inline.voicesChanged b1 [⟨"a", "hi-IN", true, true⟩]).listeners = b1.listeners ∧
        (Inline.voicesChanged (Inline.voicesChanged b1 [⟨"a", "hi-IN", true, true⟩])
          [⟨"a", "hi-IN", true, true⟩]).calls = []) :=
  ⟨⟨_, rfl, by decide, by decide, by decide, by decide⟩,
    ⟨_, rfl, by decide, by decide, by decide, by decide⟩⟩

/-! ## Claims C15 to C18: what `speak` schedules -/

/-- C15 fails as stated: with the synthesizer present and an empty catalog the selection
yields no voice, and `speak` schedules no utterance: it only registers a listener, and
however long one waits without a `voiceschanged` notification nothing reaches the
synthesizer. -/
theorem C15_empty_catalog_schedules_nothing :
    (¬ ∀ (b : Browser) (text lang : String) (options : TTSOptions),
        b.hasSynth = true → selectVoice lang b.voices = .ok none →
        ∃ b1, speak b text lang options = .ok b1 ∧
          ∃ t ∈ b1.timers, t.utterance = mkUtterance text lang options none) ∧
      (∃ b1, speak (Browser.idle []) "prompt" "hi-IN" TTSOptions.empty = .ok b1 ∧
        b1.listeners = [⟨"prompt", "hi-IN", TTSOptions.empty⟩] ∧
        ∀ ms, (advance b1 ms).calls = [] ∧ (advance b1 ms).queue = []) := by
  constructor
  · intro h
    obtain ⟨b1, hb1, t, ht, _⟩ :=
      h (Browser.idle []) "prompt" "hi-IN" TTSOptions.empty rfl (by decide)
    have hb : speak (Browser.idle []) "prompt" "hi-IN" TTSOptions.empty =
        .ok { Browser.idle [] with listeners := [⟨"prompt", "hi-IN", TTSOptions.empty⟩] } :=
      rfl
    rw [hb] at hb1
    injection hb1 with hb1
    subst hb1
    simp [Browser.idle] at ht
  · refine ⟨_, rfl, rfl, ?_⟩
    intro ms
    simp [advance, Browser.idle]

/-- C15, amended: when `speakNow` runs and the selection yields no voice, an utterance
with the text, `utterance.lang = lang` and no voice is scheduled and a warning is logged;
this is so on a loaded catalog at once, while on an empty catalog `speak` schedules
nothing itself and registers a listener, and the utterance is scheduled when the
`voiceschanged` notification arrives. -/
theorem C15_no_voice_still_speaks_when_speakNow_runs (b : Browser) (text lang : String)
    (options : TTSOptions) (hs : b.hasSynth = true) (hv : b.voices ≠ [])
    (hsel : selectVoice lang b.voices = .ok none) :
    (∃ b1, speak b text lang options = .ok b1 ∧
        b1.timers = insertTimer ⟨b.now + 100, mkUtterance text lang options none⟩ b.timers ∧
        b1.calls = b.calls ++
          [Call.warn ("No suitable voice found for " ++ lang ++ ", using default"),
           Call.cancel]) ∧
      (mkUtterance text lang options none).text = text ∧
      (mkUtterance text lang options none).lang = lang ∧
      (mkUtterance text lang options none).voice = none ∧
      (∃ b0, speak (Browser.idle []) text lang options = .ok b0 ∧
        b0.timers = [] ∧ b0.calls = [] ∧ b0.listeners = [⟨text, lang, options⟩] ∧
        (voicesChanged b0 b.voices).timers =
          [⟨100, mkUtterance text lang options none⟩]) := by
  have hlen : ¬ b.voices.length = 0 := fun h => hv (List.length_eq_zero.1 h)
  obtain ⟨cands, hc, hnone⟩ := selectVoice_ok_inv hsel
  refine ⟨⟨{ b with
      queue := []
      calls := b.calls ++
        [Call.warn ("No suitable voice found for " ++ lang ++ ", using default"),
         Call.cancel]
      timers := insertTimer ⟨b.now + 100, mkUtterance text lang options none⟩ b.timers },
    ?_, rfl, rfl⟩, rfl, rfl, rfl, ?_⟩
  · simp [speak, speakNow, hs, hlen, hsel]
  · obtain ⟨b0, hb0, hcalls, htimers, hlist, _, ht, _⟩ :=
      speak_deferred_once text lang options cands b.voices b.voices hc
    exact ⟨b0, hb0, htimers, hcalls, hlist, by rw [ht, ← hnone]⟩

/-- C15, amended, at the language "xx-XX" with a catalog of one "hi-IN" voice. -/
theorem C15_no_voice_still_speaks_when_speakNow_runs_witness :
    (∃ b1, speak (Browser.idle [⟨"a", "hi-IN", true, true⟩]) "prompt" "xx-XX"
          TTSOptions.empty = .ok b1 ∧
        b1.timers = insertTimer
          ⟨(Browser.idle [⟨"a", "hi-IN", true, true⟩]).now + 100,
            mkUtterance "prompt" "xx-XX" TTSOptions.empty none⟩
          (Browser.idle [⟨"a", "hi-IN", true, true⟩]).timers ∧
        b1.calls = (Browser.idle [⟨"a", "hi-IN", true, true⟩]).calls ++
          [Call.warn ("No suitable voice found for " ++ "xx-XX" ++ ", using default"),
           Call.cancel]) ∧
      (mkUtterance "prompt" "xx-XX" TTSOptions.empty none).text = "prompt" ∧
      (mkUtterance "prompt" "xx-XX" TTSOptions.empty none).lang = "xx-XX" ∧
      (mkUtterance "prompt" "xx-XX" TTSOptions.empty none).voice = none ∧
      (∃ b0, speak (Browser.idle []) "prompt" "xx-XX" TTSOptions.empty = .ok b0 ∧
        b0.timers = [] ∧ b0.calls = [] ∧
        b0.listeners = [⟨"prompt", "xx-XX", TTSOptions.empty⟩] ∧
        (voicesChanged b0 (Browser.idle [⟨"a", "hi-IN", true, true⟩]).voices).timers =
          [⟨100, mkUtterance "prompt" "xx-XX" TTSOptions.empty none⟩]) :=
  C15_no_voice_still_speaks_when_speakNow_runs (Browser.idle [⟨"a", "hi-IN", true, true⟩])
    "prompt" "xx-XX" TTSOptions.empty rfl (by decide) (by decide)

/-- C16: without `window.speechSynthesis`, `speak` of hooks/useTTS.ts returns normally;
it logs its warning and calls `options.onError` once when one is supplied and not at all
otherwise; it issues no cancel and no speak, and leaves the synthesizer queue, the timers
and the listeners as they were. -/
theorem C16_unsupported_signals_onError (b : Browser) (text lang : String)
    (options : TTSOptions) (h : b.hasSynth = false) :
    ∃ b1 added, speak b text lang options = .ok b1 ∧ b1.calls = b.calls ++ added ∧
      added = Call.warn "Speech synthesis not supported in this browser" ::
        (match options.onError with
          | some cb => [Call.onError cb]
          | none => []) ∧
      (∀ cb, added.count (Call.onError cb) = if options.onError = some cb then 1 else 0) ∧
      Call.cancel ∉ added ∧ spoken added = [] ∧
      b1.queue = b.queue ∧ b1.timers = b.timers ∧ b1.listeners = b.listeners := by
  refine ⟨{ b with calls := b.calls ++
      (Call.warn "Speech synthesis not supported in this browser" ::
        (match options.onError with
          | some cb => [Call.onError cb]
          | none => [])) },
    Call.warn "Speech synthesis not supported in this browser" ::
      (match options.onError with
        | some cb => [Call.onError cb]
        | none => []),
    ?_, rfl, rfl, ?_, ?_, ?_, rfl, rfl, rfl⟩
  · simp [speak, h]
  · intro cb
    cases ho : options.onError with
    | none => simp
    | some cb2 =>
      by_cases hcb : cb2 = cb
      · subst hcb; simp
      · have hne : ¬ (cb = cb2) := fun h2 => hcb h2.symm
        simp [hcb, hne]
  · cases options.onError <;> simp
  · cases options.onError <;> simp [spoken]

/-- C16 with an `onError` callback supplied. -/
theorem C16_unsupported_signals_onError_witness :
    ∃ b1 added,
      speak ⟨false, [], [], [], [], 0, [], false⟩ "prompt" "hi-IN"
        ⟨none, none, none, none, none, some 7⟩ = .ok b1 ∧
      b1.calls = (⟨false, [], [], [], [], 0, [], false⟩ : Browser).calls ++ added ∧
      added = Call.warn "Speech synthesis not supported in this browser" ::
        (match (⟨none, none, none, none, none, some 7⟩ : TTSOptions).onError with
          | some cb => [Call.onError cb]
          | none => []) ∧
      (∀ cb, added.count (Call.onError cb) =
        if (⟨none, none, none, none, none, some 7⟩ : TTSOptions).onError = some cb
          then 1 else 0) ∧
      Call.cancel ∉ added ∧ spoken added = [] ∧
      b1.queue = (⟨false, [], [], [], [], 0, [], false⟩ : Browser).queue ∧
      b1.timers = (⟨false, [], [], [], [], 0, [], false⟩ : Browser).timers ∧
      b1.listeners = (⟨false, [], [], [], [], 0, [], false⟩ : Browser).listeners :=
  C16_unsupported_signals_onError ⟨false, [], [], [], [], 0, [], false⟩ "prompt" "hi-IN"
    ⟨none, none, none, none, none, some 7⟩ rfl

/-- C17: with voices loaded, `speak("hello", "toString")` and `speak("hello", "valueOf")`
throw a TypeError to the caller, in hooks/useTTS.ts and in the `useTTS` inside
VoiceInput.tsx: the candidate list is not built. -/
theorem C17_speak_throws_at_inherited_key :
    speak (Browser.idle [⟨"a", "hi-IN", true, true⟩]) "hello" "toString" TTSOptions.empty =
        .error .typeError ∧
      speak (Browser.idle [⟨"a", "hi-IN", true, true⟩]) "hello" "valueOf" TTSOptions.empty =
        .error .typeError ∧
      Inline.speak (Browser.idle [⟨"a", "hi-IN", true, true⟩]) "hello" "toString" =
        .error .typeError ∧
      Inline.speak (Browser.idle [⟨"a", "hi-IN", true, true⟩]) "hello" "valueOf" =
        .error .typeError ∧
      candidateLangs "toString" = .error .typeError := by
  decide

/-- An option that is supplied and neither 0 nor NaN is used as it is; an absent option
gives the default. -/
theorem orElse_spec (mant : Int) (exp : Nat) (d : JSNumber) (h : mant ≠ 0) :
    JSNumber.orElse (some (.dec mant exp)) d = .dec mant exp ∧ JSNumber.orElse none d = d := by
  simp [JSNumber.orElse, h]

/-- C18: with the options `{ rate: 0, pitch: 0, volume: 0 }` supplied, the utterance gets
the defaults 0.85, 1.0 and 1.0 instead of the supplied values; so does the utterance that
`speak` schedules. -/
theorem C18_zero_options_replaced_by_defaults :
    (mkUtterance "prompt" "hi-IN" ⟨some (.dec 0 0), some (.dec 0 0), some (.dec 0 0),
        none, none, none⟩ none).rate = .dec 85 2 ∧
      (mkUtterance "prompt" "hi-IN" ⟨some (.dec 0 0), some (.dec 0 0), some (.dec 0 0),
        none, none, none⟩ none).pitch = .dec 10 1 ∧
      (mkUtterance "prompt" "hi-IN" ⟨some (.dec 0 0), some (.dec 0 0), some (.dec 0 0),
        none, none, none⟩ none).volume = .dec 10 1 ∧
      (∃ b1, speak (Browser.idle [⟨"a", "hi-IN", true, true⟩]) "prompt" "hi-IN"
          ⟨none, none, some (.dec 0 0), none, none, none⟩ = .ok b1 ∧
        b1.timers.map (fun t => t.utterance.volume) = [.dec 10 1]) :=
  ⟨by decide, by decide, by decide, _, rfl, by decide⟩

/-! ## Claims C19 and C20: stopping, and capture without recognition -/

/-- C19: `stopSpeaking` called twice leaves the state it leaves when called once; with the
synthesizer present that state has an empty queue and `isSpeaking` false; called when
nothing is queued and `isSpeaking` is false it changes no state; without the synthesizer
it does nothing at all. This holds for hooks/useTTS.ts and, `isSpeaking` apart, for the
`useTTS` inside VoiceInput.tsx. -/
theorem C19_stopSpeaking_idempotent (b : Browser) :
    (stopSpeaking (stopSpeaking b)).state = (stopSpeaking b).state ∧
      (Inline.stopSpeaking (Inline.stopSpeaking b)).state = (Inline.stopSpeaking b).state ∧
      (stopSpeaking b).queue = (if b.hasSynth then [] else b.queue) ∧
      (stopSpeaking b).isSpeaking = (if b.hasSynth then false else b.isSpeaking) ∧
      (Inline.stopSpeaking b).queue = (if b.hasSynth then [] else b.queue) ∧
      (b.queue = [] → b.isSpeaking = false →
        (stopSpeaking b).state = b.state ∧ (Inline.stopSpeaking b).state = b.state) ∧
      (b.hasSynth = false → stopSpeaking b = b ∧ Inline.stopSpeaking b = b) := by
  cases hs : b.hasSynth
  · simp [stopSpeaking, Inline.stopSpeaking, hs]
  · refine ⟨?_, ?_, ?_, ?_, ?_, ?_, ?_⟩ <;>
      simp [stopSpeaking, Inline.stopSpeaking, Browser.state, hs]
    intro hq hsp
    simp [hq, hsp]

/-- C19 on a browser with nothing queued: the second block of the statement applies. -/
theorem C19_stopSpeaking_idempotent_witness :
    (stopSpeaking (Browser.idle [⟨"a", "hi-IN", true, true⟩])).state =
        (Browser.idle [⟨"a", "hi-IN", true, true⟩]).state ∧
      (Inline.stopSpeaking (Browser.idle [⟨"a", "hi-IN", true, true⟩])).state =
        (Browser.idle [⟨"a", "hi-IN", true, true⟩]).state :=
  (C19_stopSpeaking_idempotent (Browser.idle [⟨"a", "hi-IN", true, true⟩])).2.2.2.2.2.1
    rfl rfl

/-- C20: when `window` has no speech-recognition constructor, `startListening` surfaces
one notification and nothing else: no `onChange`, no recognition session (the ref and
`isListening` are unchanged, nothing is started); reached from the idle state through the
microphone button, the capture state stays idle. -/
theorem C20_no_recognition_capability (w : RecognitionSupport) (translate : String → String)
    (speechLang : String) (p : VoiceInputProps) (st : CaptureState)
    (hw : w.webkitSpeechRecognition = false) (hs : w.SpeechRecognition = false)
    (hidle : st.isListening = false) :
    (∃ title description variant,
        startListening w translate speechLang p st =
          (st, [Effect.toast title description variant])) ∧
      (∀ v, Effect.onChange v ∉ (startListening w translate speechLang p st).2) ∧
      Effect.recognitionStart ∉ (startListening w translate speechLang p st).2 ∧
      (startListening w translate speechLang p st).1.recognitionRef = st.recognitionRef ∧
      (toggleListening w translate speechLang p st).1.isListening = false ∧
      (toggleListening w translate speechLang p st).2 =
        (startListening w translate speechLang p st).2 := by
  simp [startListening, toggleListening, hw, hs, hidle]

/-- C20 on a field whose value is "abc", with no translations. -/
theorem C20_no_recognition_capability_witness :
    (∃ title description variant,
        startListening ⟨false, false⟩ (fun _ => "") "hi-IN"
            ⟨"abc", "", ⟨"a", "A", "text", "s", none⟩, true, false, false, 0, 2, none⟩
            ⟨false, none⟩ =
          (⟨false, none⟩, [Effect.toast title description variant])) ∧
      (∀ v, Effect.onChange v ∉ (startListening ⟨false, false⟩ (fun _ => "") "hi-IN"
        ⟨"abc", "", ⟨"a", "A", "text", "s", none⟩, true, false, false, 0, 2, none⟩
        ⟨false, none⟩).2) ∧
      Effect.recognitionStart ∉ (startListening ⟨false, false⟩ (fun _ => "") "hi-IN"
        ⟨"abc", "", ⟨"a", "A", "text", "s", none⟩, true, false, false, 0, 2, none⟩
        ⟨false, none⟩).2 ∧
      (startListening ⟨false, false⟩ (fun _ => "") "hi-IN"
        ⟨"abc", "", ⟨"a", "A", "text", "s", none⟩, true, false, false, 0, 2, none⟩
        ⟨false, none⟩).1.recognitionRef = (⟨false, none⟩ : CaptureState).recognitionRef ∧
      (toggleListening ⟨false, false⟩ (fun _ => "") "hi-IN"
        ⟨"abc", "", ⟨"a", "A", "text", "s", none⟩, true, false, false, 0, 2, none⟩
        ⟨false, none⟩).1.isListening = false ∧
      (toggleListening ⟨false, false⟩ (fun _ => "") "hi-IN"
        ⟨"abc", "", ⟨"a", "A", "text", "s", none⟩, true, false, false, 0, 2, none⟩
        ⟨false, none⟩).2 =
        (startListening ⟨false, false⟩ (fun _ => "") "hi-IN"
          ⟨"abc", "", ⟨"a", "A", "text", "s", none⟩, true, false, false, 0, 2, none⟩
          ⟨false, none⟩).2 :=
  C20_no_recognition_capability ⟨false, false⟩ (fun _ => "") "hi-IN"
    ⟨"abc", "", ⟨"a", "A", "text", "s", none⟩, true, false, false, 0, 2, none⟩
    ⟨false, none⟩ rfl rfl rfl

/-! ## Claims C21 and C22: capture errors, field transitions -/

/-- C21 fails as stated: in a session that has started (`isListening` true), the state
after the error handler has run still has `isListening` true. -/
theorem C21_error_handler_keeps_isListening :
    ¬ (∀ (translate : String → String) (error : String) (st : CaptureState),
        (onerror translate error st).1.isListening = false) := by
  intro h
  have := h (fun _ => "") "no-speech" ⟨true, some ⟨false, false, "hi-IN", "abc"⟩⟩
  exact absurd this (by decide)

/-- C21, amended: the error handler logs the error and surfaces one notification, never
invokes `onChange`, and leaves the capture state, `isListening` included, as it is; the
capture state is idle once the `onend` handler, which follows an error, has run. -/
theorem C21_error_then_end_is_idle (translate : String → String) (error : String)
    (st : CaptureState) :
    (onerror translate error st).1 = st ∧
      (∃ message title description variant, (onerror translate error st).2 =
        [Effect.consoleError message, Effect.toast title description variant]) ∧
      (∀ v, Effect.onChange v ∉ (onerror translate error st).2) ∧
      (onend (onerror translate error st).1).1.isListening = false ∧
      (onend (onerror translate error st).1).1.recognitionRef = st.recognitionRef := by
  refine ⟨rfl, ⟨_, _, _, _, rfl⟩, ?_, rfl, rfl⟩
  intro v
  simp [onerror]

/-- C22: on a change of field the calls are, in this order, `clearTimeout`, `stopSpeaking`,
the stop of the capture session when one exists, and last the scheduling of the new
prompt after 500 ms, which happens once; on unmount the same cleanup runs and no prompt
is scheduled. -/
theorem C22_field_change_order (st : CaptureState) (next : VoiceInputProps) :
    (∃ between, fieldChange st next =
        unmount st ++ between ++ [Effect.after 500 Effect.speakFieldLabel] ∧
        between.map Effect.core ⊆ [Effect.focus]) ∧
      unmount st = [Effect.clearTimeout, Effect.stopSpeaking] ++
        (if st.recognitionRef.isSome then [Effect.recognitionStop] else []) ∧
      ((fieldChange st next).map Effect.core).count Effect.speakFieldLabel = 1 ∧
      Effect.speakFieldLabel ∉ (unmount st).map Effect.core := by
  refine ⟨⟨if next.field.type = "textarea" then [] else [Effect.focus], ?_, ?_⟩, rfl, ?_, ?_⟩
  · simp [fieldChange, unmount, promptEffect]
  · by_cases h : next.field.type = "textarea" <;> simp [h, Effect.core]
  · by_cases h : next.field.type = "textarea" <;>
      cases hr : st.recognitionRef <;>
      simp [fieldChange, promptCleanup, promptEffect, h, hr, Effect.core]
  · cases hr : st.recognitionRef <;> simp [unmount, promptCleanup, hr, Effect.core]

/-! ## Claims C24 to C26: inline selection, stale value, prompt text -/

/-- C24: for "en-IN" and the catalog with an "en-US" voice ahead of an "en-IN" voice, the
selection inside VoiceInput.tsx returns the "en-US" voice, although a voice with exactly
the lang "en-IN" exists; the selection of hooks/useTTS.ts returns the "en-IN" voice. -/
theorem C24_inline_selection_ignores_exact_match :
    Inline.selectVoice "en-IN" [⟨"a", "en-US", true, true⟩, ⟨"b", "en-IN", true, false⟩] =
        .ok (some ⟨"a", "en-US", true, true⟩) ∧
      selectVoice "en-IN" [⟨"a", "en-US", true, true⟩, ⟨"b", "en-IN", true, false⟩] =
        .ok (some ⟨"b", "en-IN", true, false⟩) := by
  decide

/-- The result handler of a session uses the `value` of the props with which
`startListening` ran, whatever the props are when the result arrives. -/
theorem resultDelivered_uses_captured_value (w : RecognitionSupport)
    (translate : String → String) (speechLang : String) (p : VoiceInputProps)
    (st : CaptureState) (transcript : String)
    (hw : (w.webkitSpeechRecognition || w.SpeechRecognition) = true) :
    resultDelivered (startListening w translate speechLang p st).1 transcript =
      [Effect.onChange (onresultValue p.value transcript)] := by
  simp only [startListening, hw, if_true, resultDelivered, onresult]

/-- C25: `startListening` runs while the value is "a"; the user then types, so that the
value is "ab" when the transcript "c" arrives; the result handler passes "a c" to
`onChange`, not "ab c": the typed "b" is lost. -/
theorem C25_result_handler_uses_stale_value :
    resultDelivered
        (startListening ⟨true, false⟩ (fun _ => "") "hi-IN"
          ⟨"a", "", ⟨"k", "K", "text", "s", none⟩, true, false, false, 0, 2, none⟩
          ⟨false, none⟩).1 "c" = [Effect.onChange "a c"] ∧
      onresultValue "ab" "c" = "ab c" ∧
      resultDelivered
        (startListening ⟨true, false⟩ (fun _ => "") "hi-IN"
          ⟨"a", "", ⟨"k", "K", "text", "s", none⟩, true, false, false, 0, 2, none⟩
          ⟨false, none⟩).1 "c" ≠ [Effect.onChange "ab c"] := by
  decide

/-- C26: for every field and every language of the selector, `speakFieldLabel` calls
`speak` with that language and with the text made of the instruction of the language, one
space and the label, the label being the entry of `fieldLabels` for the field key and the
language when there is one and `field.label` otherwise; the text is not empty. -/
theorem C26_prompt_text (p : VoiceInputProps) (lang : TTSLang) :
    speakFieldLabel p lang =
        [Effect.setIsSpeaking true,
         Effect.speak (instructions lang ++ " " ++
           (match fieldLabels p.field.key lang with
            | some label => label
            | none => p.field.label)) lang.code,
         Effect.after 3000 (Effect.setIsSpeaking false)] ∧
      orString (instructions lang) "Please enter" = instructions lang ∧
      instructions .enIN = "Please enter" ∧
      instructions lang ++ " " ++
        (match fieldLabels p.field.key lang with
         | some label => label
         | none => p.field.label) ≠ "" := by
  have hi : orString (instructions lang) (instructions .enIN) = instructions lang := by
    cases lang <;> decide
  have hl : getLocalizedLabel p.field p.field.key lang =
      (match fieldLabels p.field.key lang with
       | some label => label
       | none => p.field.label) := by
    unfold getLocalizedLabel fieldLabels
    by_cases hk : p.field.key = "assemblyConstituencyNo"
    · simp only [hk, if_true]
      cases lang <;> rfl
    · simp only [hk, if_false]
  refine ⟨?_, ?_, rfl, ?_⟩
  · simp only [speakFieldLabel, hi, hl]
  · cases lang <;> decide
  · intro h
    have hlen := congrArg String.length h
    simp only [String.length_append] at hlen
    have h1 : " ".length = 1 := rfl
    have h0 : "".length = 0 := rfl
    omega

/-! ## Claims C27 and C28: the two selections, `getVoicesForLanguage` -/

theorem foundFor_eq_none_iff_any (voices : List Voice) (c : String) :
    foundFor voices c = none ↔
      (voices.any fun v => startsWith v.lang (splitFirst c)) = false := by
  rw [foundFor_eq_none_iff, List.any_eq_false]
  constructor
  · intro h v hv hs
    exact h v hv (Or.inr hs)
  · intro h v hv hm
    exact h v hv ((matches_iff_startsWith v c).1 hm)

theorem firstMatching_cons (voices : List Voice) (c : String) (rest : List String) :
    firstMatching voices (c :: rest) =
      if (voices.any fun v => startsWith v.lang (splitFirst c)) = true then some c
      else firstMatching voices rest := by
  unfold firstMatching
  rw [List.find?_cons]
  cases voices.any fun v => startsWith v.lang (splitFirst c) <;> simp

/-- The loop of hooks/useTTS.ts returns a voice exactly when some candidate has a match,
and the voice it returns starts with the subtag of the earliest such candidate. -/
theorem matchedVoice_firstMatching (voices : List Voice) (cands : List String) :
    (matchedVoice voices cands = none ↔ firstMatching voices cands = none) ∧
      ∀ v, matchedVoice voices cands = some v →
        ∃ c, firstMatching voices cands = some c ∧
          startsWith v.lang (splitFirst c) = true := by
  induction cands with
  | nil => simp [matchedVoice, firstMatching]
  | cons c rest ih =>
    rw [matchedVoice_cons, firstMatching_cons]
    cases hf : foundFor voices c with
    | none =>
      have hany := (foundFor_eq_none_iff_any voices c).1 hf
      simp only [hany, Bool.false_eq_true, if_false]
      exact ih
    | some w =>
      have hany : (voices.any fun v => startsWith v.lang (splitFirst c)) = true := by
        cases h : voices.any fun v => startsWith v.lang (splitFirst c) with
        | true => rfl
        | false =>
          have := (foundFor_eq_none_iff_any voices c).2 h
          rw [hf] at this
          cases this
      simp only [hany, if_true]
      refine ⟨by simp, ?_⟩
      intro v hv
      simp only [Option.some.injEq] at hv
      subst hv
      exact ⟨c, rfl, (matches_iff_startsWith w c).1 (foundFor_mem hf).2⟩

theorem Inline.matchedVoice_step (voices : List Voice) (c : String) (rest : List String) :
    Inline.matchedVoice voices (c :: rest) =
      match voices.find? (fun v => startsWith v.lang (splitFirst c)) with
      | some v => some v
      | none => Inline.matchedVoice voices rest := by
  unfold Inline.matchedVoice
  rw [List.map_cons, List.find?_cons]
  cases voices.find? (fun v => startsWith v.lang (splitFirst c)) <;> rfl

/-- The selection inside VoiceInput.tsx returns a voice exactly when some candidate has a
match, and the voice it returns starts with the subtag of the earliest such candidate. -/
theorem Inline.matchedVoice_earliest (voices : List Voice) (cands : List String) :
    (Inline.matchedVoice voices cands = none ↔ firstMatching voices cands = none) ∧
      ∀ v, Inline.matchedVoice voices cands = some v →
        ∃ c, firstMatching voices cands = some c ∧
          startsWith v.lang (splitFirst c) = true := by
  induction cands with
  | nil => simp [Inline.matchedVoice, firstMatching]
  | cons c rest ih =>
    rw [Inline.matchedVoice_step, firstMatching_cons]
    cases hf : voices.find? (fun v => startsWith v.lang (splitFirst c)) with
    | none =>
      have hany : (voices.any fun v => startsWith v.lang (splitFirst c)) = false := by
        rw [List.any_eq_false]
        intro v hv
        exact (List.find?_eq_none.1 hf) v hv
      simp only [hany, Bool.false_eq_true, if_false]
      exact ih
    | some w =>
      have hw : startsWith w.lang (splitFirst c) = true :=
        @List.find?_some _ (fun v => startsWith v.lang (splitFirst c)) w voices hf
      have hany : (voices.any fun v => startsWith v.lang (splitFirst c)) = true :=
        List.any_eq_true.2 ⟨w, List.mem_of_find?_eq_some hf, hw⟩
      simp only [hany, if_true]
      refine ⟨by simp, ?_⟩
      intro v hv
      simp only [Option.some.injEq] at hv
      subst hv
      exact ⟨c, rfl, hw⟩

/-- The two candidate lists: both are not built, or the list of hooks/useTTS.ts is the
list of VoiceInput.tsx, possibly with `lang` once more in front. -/
theorem candidateLangs_related (lang : String) :
    (candidateLangs lang = .error .typeError ∧
        Inline.candidateLangs lang = .error .typeError) ∨
      ∃ rest, Inline.candidateLangs lang = .ok (lang :: rest) ∧
        (candidateLangs lang = .ok (lang :: rest) ∨
          candidateLangs lang = .ok (lang :: lang :: rest)) := by
  by_cases h1 : lang = "mr-IN"
  · subst h1; exact Or.inr ⟨_, rfl, Or.inr rfl⟩
  by_cases h2 : lang = "kn-IN"
  · subst h2; exact Or.inr ⟨_, rfl, Or.inr rfl⟩
  by_cases h3 : lang = "hi-IN"
  · subst h3; exact Or.inr ⟨_, rfl, Or.inl rfl⟩
  by_cases h4 : lang = "en-IN"
  · subst h4; exact Or.inr ⟨_, rfl, Or.inl rfl⟩
  by_cases h5 : lang ∈ objectPrototypeKeys
  · left
    simp [candidateLangs, Inline.candidateLangs, fallbackMap, Inline.fallbackMap,
      h1, h2, h3, h4, h5]
  · right
    refine ⟨["en-IN", "en-US"], ?_, Or.inl ?_⟩ <;>
      simp [candidateLangs, Inline.candidateLangs, fallbackMap, Inline.fallbackMap,
        h1, h2, h3, h4, h5]

theorem firstMatching_dup (voices : List Voice) (c : String) (rest : List String) :
    firstMatching voices (c :: c :: rest) = firstMatching voices (c :: rest) := by
  rw [firstMatching_cons voices c (c :: rest), firstMatching_cons voices c rest]
  by_cases h : (voices.any fun v => startsWith v.lang (splitFirst c)) = true <;> simp [h]

/-- C27: for every lang and catalog, the selection inside VoiceInput.tsx returns a voice
exactly when the selection of hooks/useTTS.ts does, and when both do, there is a candidate
of both lists with whose part before the first hyphen the langs of both voices start. -/
theorem C27_selections_agree (lang : String) (voices : List Voice) :
    ((∃ v, Inline.selectVoice lang voices = .ok (some v)) ↔
        (∃ v, selectVoice lang voices = .ok (some v))) ∧
      ∀ v1 v2, Inline.selectVoice lang voices = .ok (some v1) →
        selectVoice lang voices = .ok (some v2) →
        ∃ ci ch c, Inline.candidateLangs lang = .ok ci ∧ candidateLangs lang = .ok ch ∧
          c ∈ ci ∧ c ∈ ch ∧
          startsWith v1.lang (splitFirst c) = true ∧
          startsWith v2.lang (splitFirst c) = true := by
  rcases candidateLangs_related lang with ⟨hh, hi⟩ | ⟨rest, hi, hh⟩
  · simp [selectVoice, Inline.selectVoice, hh, hi]
  · have hfm : ∀ ch, candidateLangs lang = .ok ch →
        firstMatching voices ch = firstMatching voices (lang :: rest) ∧
          ∀ c, c ∈ lang :: rest → c ∈ ch := by
      intro ch hch
      rcases hh with hh | hh
      · rw [hh] at hch; injection hch with hch; subst hch; exact ⟨rfl, fun _ h => h⟩
      · rw [hh] at hch; injection hch with hch; subst hch
        exact ⟨firstMatching_dup voices lang rest, fun _ h => List.mem_cons_of_mem _ h⟩
    obtain ⟨ch, hch⟩ : ∃ ch, candidateLangs lang = .ok ch := by
      rcases hh with hh | hh <;> exact ⟨_, hh⟩
    obtain ⟨hfirst, hsub⟩ := hfm ch hch
    have hI := Inline.matchedVoice_earliest voices (lang :: rest)
    have hH := matchedVoice_firstMatching voices ch
    have eI : Inline.selectVoice lang voices =
        .ok (Inline.matchedVoice voices (lang :: rest)) := by
      simp [Inline.selectVoice, hi]
    have eH : selectVoice lang voices = .ok (matchedVoice voices ch) :=
      selectVoice_ok voices hch
    rw [eI, eH]
    constructor
    · constructor
      · rintro ⟨v, hv⟩
        injection hv with hv
        cases hm : matchedVoice voices ch with
        | some w => exact ⟨w, rfl⟩
        | none =>
          have h1 := hH.1.1 hm
          rw [hfirst] at h1
          have h2 := hI.1.2 h1
          rw [hv] at h2
          cases h2
      · rintro ⟨v, hv⟩
        injection hv with hv
        cases hm : Inline.matchedVoice voices (lang :: rest) with
        | some w => exact ⟨w, rfl⟩
        | none =>
          have h1 := hI.1.1 hm
          rw [← hfirst] at h1
          have h2 := hH.1.2 h1
          rw [hv] at h2
          cases h2
    · intro v1 v2 h1 h2
      injection h1 with h1
      injection h2 with h2
      obtain ⟨c1, hc1, hs1⟩ := hI.2 v1 h1
      obtain ⟨c2, hc2, hs2⟩ := hH.2 v2 h2
      rw [hfirst, hc1] at hc2
      injection hc2 with hc2
      subst hc2
      have hmem : c1 ∈ lang :: rest := by
        unfold firstMatching at hc1
        exact List.mem_of_find?_eq_some hc1
      exact ⟨lang :: rest, ch, c1, hi, hch, hmem, hsub c1 hmem, hs1, hs2⟩

/-- C27 at "mr-IN" with the catalog langs "en-US", "hi-IN": both selections return the
"hi-IN" voice. -/
theorem C27_selections_agree_witness :
    ∃ ci ch c, Inline.candidateLangs "mr-IN" = .ok ci ∧ candidateLangs "mr-IN" = .ok ch ∧
      c ∈ ci ∧ c ∈ ch ∧
      startsWith (⟨"b", "hi-IN", true, false⟩ : Voice).lang (splitFirst c) = true ∧
      startsWith (⟨"b", "hi-IN", true, false⟩ : Voice).lang (splitFirst c) = true :=
  (C27_selections_agree "mr-IN"
    [⟨"a", "en-US", true, true⟩, ⟨"b", "hi-IN", true, false⟩]).2
    ⟨"b", "hi-IN", true, false⟩ ⟨"b", "hi-IN", true, false⟩ (by decide) (by decide)

/-- The exact-equality test of `getVoicesForLanguage` adds nothing: the result is the
catalog filtered by the prefix test alone. -/
theorem getVoicesForLanguage_eq_filter (b : Browser) (lang : String) (hs : b.hasSynth = true) :
    getVoicesForLanguage b lang =
      b.voices.filter fun v => startsWith v.lang (splitFirst lang) := by
  simp only [getVoicesForLanguage, hs, Bool.true_eq_false, if_false]
  apply List.filter_congr
  intro v _
  by_cases he : v.lang = lang
  · simp [he, startsWith_splitFirst]
  · simp [he]

/-- For a `lang` whose candidate list is built: when `getVoicesForLanguage(lang)` is not
empty, the voice selected for `lang` is a member of it. -/
theorem selected_mem_getVoicesForLanguage (b : Browser) (lang : String)
    (cands : List String) (hs : b.hasSynth = true) (hc : candidateLangs lang = .ok cands)
    (hne : getVoicesForLanguage b lang ≠ []) :
    ∃ v, selectVoice lang b.voices = .ok (some v) ∧ v ∈ getVoicesForLanguage b lang := by
  rw [getVoicesForLanguage_eq_filter b lang hs] at hne ⊢
  obtain ⟨w, hw⟩ := List.exists_mem_of_ne_nil _ hne
  rw [List.mem_filter] at hw
  have hhead : ∃ rest, cands = lang :: rest := by
    unfold candidateLangs at hc
    cases hf : fallbackMap lang with
    | own chain => rw [hf] at hc; exact ⟨chain, by injection hc with h; exact h.symm⟩
    | undefined => rw [hf] at hc; exact ⟨_, by injection hc with h; exact h.symm⟩
    | inherited => rw [hf] at hc; cases hc
  obtain ⟨rest, rfl⟩ := hhead
  rw [selectVoice_ok b.voices hc, matchedVoice_cons]
  cases hf : foundFor b.voices lang with
  | none =>
    exact absurd (Or.inr hw.2) ((foundFor_eq_none_iff b.voices lang).1 hf w hw.1)
  | some v =>
    have hm := foundFor_mem hf
    exact ⟨v, rfl, List.mem_filter.2 ⟨hm.1, (matches_iff_startsWith v lang).1 hm.2⟩⟩

/-- C28: for every lang and every platform catalog, `getVoicesForLanguage(lang)` is the
catalog filtered, in catalog order, by the test that the lang of the voice starts with
the part of lang before the first hyphen, and whenever that list is not empty the voice
selected by `speak` for lang is a member of it. -/
theorem C28_selection_within_getVoicesForLanguage (b : Browser) (lang : String)
    (hs : b.hasSynth = true) (hcat : PlatformCatalog b.voices) :
    getVoicesForLanguage b lang =
        b.voices.filter (fun v => startsWith v.lang (splitFirst lang)) ∧
      (getVoicesForLanguage b lang).Sublist b.voices ∧
      (getVoicesForLanguage b lang ≠ [] →
        ∃ v, selectVoice lang b.voices = .ok (some v) ∧
          v ∈ getVoicesForLanguage b lang) := by
  have heq := getVoicesForLanguage_eq_filter b lang hs
  refine ⟨heq, by rw [heq]; exact List.filter_sublist _, ?_⟩
  intro hne
  have hnk : lang ∉ objectPrototypeKeys := by
    apply platformCatalog_not_key hcat
    rw [heq] at hne
    obtain ⟨w, hw⟩ := List.exists_mem_of_ne_nil _ hne
    rw [List.mem_filter] at hw
    exact ⟨w, hw.1, hw.2⟩
  obtain ⟨cands, hc⟩ := candidateLangs_ok_of_not_key hnk
  exact selected_mem_getVoicesForLanguage b lang cands hs hc hne

/-- C28 at "en-IN" with the catalog langs "hi-IN", "en-US", "en-IN": the list holds the
two English voices and the selected voice is one of them. -/
theorem C28_selection_within_getVoicesForLanguage_witness :
    ∃ v, selectVoice "en-IN" (Browser.idle [⟨"a", "hi-IN", true, true⟩,
          ⟨"b", "en-US", true, false⟩, ⟨"c", "en-IN", true, false⟩]).voices =
          .ok (some v) ∧
      v ∈ getVoicesForLanguage (Browser.idle [⟨"a", "hi-IN", true, true⟩,
          ⟨"b", "en-US", true, false⟩, ⟨"c", "en-IN", true, false⟩]) "en-IN" :=
  (C28_selection_within_getVoicesForLanguage
    (Browser.idle [⟨"a", "hi-IN", true, true⟩, ⟨"b", "en-US", true, false⟩,
      ⟨"c", "en-IN", true, false⟩]) "en-IN" rfl (by decide)).2.2 (by decide)

/-! ## Claim C23: case creation -/

/-- C23: when the title or the case id is empty, `handleSubmit` only shows the error
"Title and Case ID are required": `createCase` is not called and nothing navigates;
otherwise `createCase` is called once, with the form data. -/
theorem C23_missing_fields_rejected (formData : CaseFormData)
    (outcome : Except (Option String) Unit) :
    if formData.title = "" ∨ formData.caseId = "" then
      handleSubmit formData outcome =
        [PageEffect.preventDefault, PageEffect.setError "Title and Case ID are required"]
    else
      (handleSubmit formData outcome).count (PageEffect.createCase formData) = 1 ∧
        ∀ d, PageEffect.createCase d ∈ handleSubmit formData outcome → d = formData := by
  by_cases h : formData.title = "" ∨ formData.caseId = ""
  · simp only [h, if_true, handleSubmit]
  · simp only [h, if_false, handleSubmit]
    cases outcome <;> simp

/-! ## Claims C29 and C30: registration and login -/

/-- On string fields the registration makes its checks in the order of the claim and
creates the user exactly when all of them pass; the length is counted in UTF-16 code
units. -/
theorem register_strings (users : List User)
    (name email phone password confirmPassword : String) :
    register users ⟨.string name, .string email, .string phone, .string password,
        .string confirmPassword⟩ =
      if name = "" ∨ email = "" ∨ phone = "" ∨ password = "" ∨ confirmPassword = "" then
        (⟨400, .error "All fields are required"⟩, users)
      else if password ≠ confirmPassword then
        (⟨400, .error "Passwords do not match"⟩, users)
      else if utf16Length password < 8 then
        (⟨400, .error "Password must be at least 8 characters long"⟩, users)
      else if ∃ u ∈ users, u.email = email ∨ u.phone = phone then
        (⟨409, .error "User with this email or phone already exists"⟩, users)
      else
        (⟨201, .success "User registered successfully" users.length name email phone⟩,
          users ++ [⟨name, email, phone, password, none⟩]) := by
  by_cases h1 : name = "" ∨ email = "" ∨ phone = "" ∨ password = "" ∨ confirmPassword = ""
  · rw [if_pos h1]
    have : (!(JSValue.string name).truthy || !(JSValue.string email).truthy ||
        !(JSValue.string phone).truthy || !(JSValue.string password).truthy ||
        !(JSValue.string confirmPassword).truthy) = true := by
      simp only [JSValue.truthy, Bool.or_eq_true, Bool.not_eq_true', bne_eq_false_iff_eq]
      tauto
    simp only [register, registerTry, this, if_true]
  · rw [if_neg h1]
    have : (!(JSValue.string name).truthy || !(JSValue.string email).truthy ||
        !(JSValue.string phone).truthy || !(JSValue.string password).truthy ||
        !(JSValue.string confirmPassword).truthy) = false := by
      simp only [JSValue.truthy, Bool.or_eq_false_iff, Bool.not_eq_false', bne_iff_ne, ne_eq]
      tauto
    simp only [register, registerTry, this, Bool.false_eq_true, if_false]
    by_cases h2 : password = confirmPassword
    · subst h2
      simp only [ne_eq, not_true_eq_false, if_false, JSValue.lengthLt, JSValue.length]
      by_cases h3 : utf16Length password < 8
      · simp [h3]
      · simp only [h3, decide_False, if_false]
        by_cases h4 : ∃ u ∈ users, u.email = email ∨ u.phone = phone
        · rw [if_pos h4]
          obtain ⟨u, hu, hm⟩ := h4
          cases hfind : users.find? (fun u =>
              castString (.string email) == some u.email ||
                castString (.string phone) == some u.phone) with
          | some w => rfl
          | none =>
            rw [List.find?_eq_none] at hfind
            have := hfind u hu
            simp only [castString, Bool.or_eq_true, beq_iff_eq, Option.some.injEq] at this
            rcases hm with hm | hm
            · exact absurd (Or.inl hm.symm) this
            · exact absurd (Or.inr hm.symm) this
        · rw [if_neg h4]
          cases hfind : users.find? (fun u =>
              castString (.string email) == some u.email ||
                castString (.string phone) == some u.phone) with
          | none => simp [castString]
          | some w =>
            have hw := List.mem_of_find?_eq_some hfind
            have hp := List.find?_some hfind
            simp only [castString, Bool.or_eq_true, beq_iff_eq, Option.some.injEq] at hp
            exact absurd ⟨w, hw, hp.imp Eq.symm Eq.symm⟩ h4
    · have h2b : (JSValue.string password ≠ JSValue.string confirmPassword) := by
        intro h; injection h with h; exact h2 h
      simp [h2, h2b]

/-- C29: the body with `password: true` and `confirmPassword: true` (name, email and
phone non-empty, no user yet) passes all checks, since `true.length < 8` is false: the
answer is 201 and a user whose password is "true" is created, although the password does
not have 8 characters; the same happens with the number 1234. -/
theorem C29_non_string_password_registers :
    register [] ⟨.string "Asha", .string "asha@example.org", .string "9000000000",
        .bool true, .bool true⟩ =
      (⟨201, .success "User registered successfully" 0 "Asha" "asha@example.org"
          "9000000000"⟩,
        [⟨"Asha", "asha@example.org", "9000000000", "true", none⟩]) ∧
    (register [] ⟨.string "Asha", .string "asha@example.org", .string "9000000000",
        .number ⟨1234, by decide⟩, .number ⟨1234, by decide⟩⟩).1.status = 201 ∧
    register [] ⟨.string "Asha", .string "asha@example.org", .string "9000000000",
        .string "true", .string "true"⟩ =
      (⟨400, .error "Password must be at least 8 characters long"⟩, []) := by
  decide

/-- For a non-empty string email and password, the answer is 401 "Invalid credentials"
and nothing is stored, whether no user has the email or the password of the user found
has another bcrypt key. -/
theorem login_strings_invalid (users : List User) (email password : String) (now : Nat)
    (he : email ≠ "") (hp : password ≠ "")
    (h : ∀ u, users.find? (fun u => castString (.string email) == some u.email) = some u →
      bcryptKey u.password ≠ bcryptKey password) :
    login users ⟨.string email, .string password⟩ now =
      (⟨401, .error "Invalid credentials"⟩, users) := by
  have ht : (!(JSValue.string email).truthy || !(JSValue.string password).truthy) = false := by
    simp [JSValue.truthy, he, hp]
  simp only [login, loginTry, ht, Bool.false_eq_true, if_false]
  cases hfind : users.find? (fun u => castString (.string email) == some u.email) with
  | none => rfl
  | some u =>
    have hne := h u hfind
    have : (bcryptKey password == bcryptKey u.password) = false := by
      simp only [beq_eq_false_iff_ne, ne_eq]
      exact fun h2 => hne h2.symm
    simp [comparePassword, this]

/-- C30: the same request body `{ email, password: 1 }` is answered 500 when a user has
the email (the comparison of a non-string password throws) and 401 "Invalid credentials"
when no user has it: the two responses differ. In neither case is anything stored. -/
theorem C30_non_string_password_reveals_user :
    login [⟨"Asha", "asha@example.org", "9000000000", "correct horse", none⟩]
        ⟨.string "asha@example.org", .number ⟨1, by decide⟩⟩ 1000 =
      (⟨500, .error "Internal server error. Please try again later."⟩,
        [⟨"Asha", "asha@example.org", "9000000000", "correct horse", none⟩]) ∧
    login [⟨"Asha", "asha@example.org", "9000000000", "correct horse", none⟩]
        ⟨.string "nobody@example.org", .number ⟨1, by decide⟩⟩ 1000 =
      (⟨401, .error "Invalid credentials"⟩,
        [⟨"Asha", "asha@example.org", "9000000000", "correct horse", none⟩]) ∧
    (login [⟨"Asha", "asha@example.org", "9000000000", "correct horse", none⟩]
        ⟨.string "asha@example.org", .number ⟨1, by decide⟩⟩ 1000).1 ≠
      (login [⟨"Asha", "asha@example.org", "9000000000", "correct horse", none⟩]
        ⟨.string "nobody@example.org", .number ⟨1, by decide⟩⟩ 1000).1 := by
  decide

end VaaniNyay
